import Mathlib

/-!
Shallow embedding of the core of the `zrygan/Raytracer` repository
(2D light-simulation scene: emitters casting rays, absorbers occluding
them).  `f32` arithmetic is modelled by exact real arithmetic; the
external screen size (`macroquad`'s `screen_width()`/`screen_height()`)
is passed as explicit parameters `W`/`H`; the global `OBJ_COLLECTION`
store is modelled as a list of scene objects that the scene-wide passes
transform.  Definitions mirror the Rust source (`src/objects/*.rs`,
`src/helpers/*.rs`); theorems settle the specification claims.
-/

namespace Raytracer

/-- Model of `macroquad::color::Color` (r, g, b, a components). -/
structure Color where
  r : ℝ
  g : ℝ
  b : ℝ
  a : ℝ

/-- Rust `ObjectRay` from `src/objects/ray.rs`. -/
structure ObjectRay where
  start_x : ℝ
  start_y : ℝ
  end_x : ℝ
  end_y : ℝ
  thickness : ℝ
  color : Color

/-- Rust `ObjectCircle` from `src/objects/circle.rs`. -/
structure ObjectCircle where
  pos_x : ℝ
  pos_y : ℝ
  color_fill : Color
  radius : ℝ

/-- Rust `AbsorberPerfect` from `src/objects/absorber.rs`. -/
structure AbsorberPerfect where
  base_object : ObjectCircle

/-- Rust `Absorbers` enum from `src/objects/absorber.rs`. -/
inductive Absorbers where
  | AbsorberPerfect : AbsorberPerfect → Absorbers

/-- Rust `EmitterIsotropic` from `src/objects/emitters.rs`. -/
structure EmitterIsotropic where
  base_object : ObjectCircle
  rays : List ObjectRay

/-- Rust `EmitterCollimated` from `src/objects/emitters.rs`. -/
structure EmitterCollimated where
  base_emitter : EmitterIsotropic
  orientation : ℝ
  collimated_beam_diameter : ℝ

/-- Rust `EmitterSpotlight` from `src/objects/emitters.rs`. -/
structure EmitterSpotlight where
  base_emitter : EmitterIsotropic
  orientation : ℝ
  spotlight_beam_angle : ℝ

/-- Rust `Emitters` enum from `src/objects/emitters.rs`. -/
inductive Emitters where
  | EmitterIsotropic : EmitterIsotropic → Emitters
  | EmitterCollimated : EmitterCollimated → Emitters
  | EmitterSpotlight : EmitterSpotlight → Emitters

/-- Rust `RaytracerObjects` enum from `src/objects/behavior.rs`. -/
inductive RaytracerObjects where
  | ObjectCircle : ObjectCircle → RaytracerObjects
  | Emitters : Emitters → RaytracerObjects
  | Absorbers : Absorbers → RaytracerObjects

/-- Rust `OBJC_MAX_RAY_COUNT` from `src/globals.rs`. -/
def OBJC_MAX_RAY_COUNT : ℤ := 100

/-- Rust `OBJC_MIN_RAY_COUNT` from `src/globals.rs`. -/
def OBJC_MIN_RAY_COUNT : ℤ := 3

/-- Rust `OBJC_MOUSE_EPSILON` from `src/globals.rs`. -/
def OBJC_MOUSE_EPSILON : ℝ := 5

/-- Rust `OBJD_CIRCLE_RADIUS` from `src/globals.rs`. -/
def OBJD_CIRCLE_RADIUS : ℝ := 50

/-- Rust `OBJD_RAY_WIDTH` from `src/globals.rs`. -/
def OBJD_RAY_WIDTH : ℝ := 1

/-- Rust `OBJD_RAY_COLOR` from `src/globals.rs`. -/
def OBJD_RAY_COLOR : Color := ⟨0.5, 0.5, 0.5, 1⟩

/-- Rust `init_isotropic_rays` from `src/objects/ray.rs`; `W`/`H` stand for the
external `screen_width()`/`screen_height()` inputs. -/
noncomputable def init_isotropic_rays (start_x start_y : ℝ) (ray_count : ℤ)
    (W H : ℝ) : List ObjectRay :=
  (List.range ray_count.toNat).map fun (index : ℕ) =>
    let angle := ((index : ℝ) / (ray_count : ℝ)) * 2 * Real.pi
    ObjectRay.mk start_x start_y
      (start_x + Real.cos angle * W)
      (start_y + Real.sin angle * H)
      OBJD_RAY_WIDTH OBJD_RAY_COLOR

/-- Rust `init_collimated_rays` from `src/objects/ray.rs`; the Rust
`(index - (ray_count - 1) / 2)` is `i32` arithmetic with truncating
division, modelled on `ℤ` (the operands are nonnegative in every use
covered by the spec, where all integer division conventions agree). -/
noncomputable def init_collimated_rays (start_x start_y orientation
    collimated_beam_diameter : ℝ) (ray_count : ℤ) (W H : ℝ) : List ObjectRay :=
  let cos_x := Real.cos orientation
  let sin_y := Real.sin orientation
  let perp : ℝ × ℝ := (-sin_y, cos_x)
  let spacing := collimated_beam_diameter / (((ray_count - 1) : ℤ) : ℝ)
  (List.range ray_count.toNat).map fun (index : ℕ) =>
    let offset := ((((index : ℤ) - (ray_count - 1) / 2) : ℤ) : ℝ) * spacing
    let offset_x := offset * perp.1
    let offset_y := offset * perp.2
    ObjectRay.mk (start_x + offset_x) (start_y + offset_y)
      (start_x + offset_x + cos_x * W)
      (start_y + offset_y + sin_y * H)
      OBJD_RAY_WIDTH OBJD_RAY_COLOR

/-- Rust `linspace` from `src/helpers/object_utils.rs`. -/
noncomputable def linspace (x1 x2 : ℝ) (sample_size : ℤ) : Option (List ℝ) :=
  if sample_size ≤ 1 then none
  else if sample_size = 2 then some [x1, x2]
  else
    let diff := (x2 - x1) / (((sample_size - 1) : ℤ) : ℝ)
    some ((List.range sample_size.toNat).map fun (point : ℕ) => x1 + (point : ℝ) * diff)

/-- Rust `init_spotlight_rays` from `src/objects/ray.rs`.  The Rust code
`.expect`s the `linspace` result (panicking for `ray_count < 2`); the
panic case is modelled by the empty default, and every caller covered by
a claim passes `ray_count ≥ 3` where `linspace` is `some`. -/
noncomputable def init_spotlight_rays (start_x start_y orientation
    spotlight_beam_angle : ℝ) (ray_count : ℤ) (W H : ℝ) : List ObjectRay :=
  let half_angle := spotlight_beam_angle / 2
  let angles := (linspace (orientation - half_angle) (orientation + half_angle)
    ray_count).getD []
  angles.map fun angle =>
    ObjectRay.mk start_x start_y
      (start_x + W * Real.cos angle)
      (start_y + H * (-1 * Real.sin angle))
      OBJD_RAY_WIDTH OBJD_RAY_COLOR

/-- Quadratic coefficient `a` from `occlusion` (`src/objects/occlusion.rs`):
`slope.0.powi(2) + slope.1.powi(2)` with `slope = (xf - xs, yf - ys)`. -/
def occl_a (xs ys xf yf : ℝ) : ℝ := (xf - xs) ^ 2 + (yf - ys) ^ 2

/-- Quadratic coefficient `b` from `occlusion`. -/
def occl_b (pos_x pos_y xs ys xf yf : ℝ) : ℝ :=
  2 * ((xf - xs) * (xs - pos_x) + (yf - ys) * (ys - pos_y))

/-- Quadratic coefficient `c` from `occlusion`. -/
def occl_c (pos_x pos_y radius xs ys : ℝ) : ℝ :=
  (xs - pos_x) ^ 2 + (ys - pos_y) ^ 2 - radius ^ 2

/-- Rust `occlusion` from `src/objects/occlusion.rs`. -/
noncomputable def occlusion (occluder : Absorbers) (ray : ObjectRay) :
    Option (ℝ × ℝ) :=
  let xs := ray.start_x
  let xf := ray.end_x
  let ys := ray.start_y
  let yf := ray.end_y
  match occluder with
  | Absorbers.AbsorberPerfect o =>
    let pos_x := o.base_object.pos_x
    let pos_y := o.base_object.pos_y
    let radius := o.base_object.radius
    let a := occl_a xs ys xf yf
    let b := occl_b pos_x pos_y xs ys xf yf
    let c := occl_c pos_x pos_y radius xs ys
    let discriminant := b ^ 2 - 4 * a * c
    if discriminant < 0 then none
    else
      let sqrt_discriminant := Real.sqrt discriminant
      let sol_1 := if a ≠ 0 then (-b - sqrt_discriminant) / (2 * a) else 0
      let sol_2 := if a ≠ 0 then (-b + sqrt_discriminant) / (2 * a) else 0
      if 0 < sol_1 ∧ sol_1 ≤ 1 then some (xs + sol_1 * (xf - xs), ys + sol_1 * (yf - ys))
      else if 0 < sol_2 ∧ sol_2 ≤ 1 then some (xs + sol_2 * (xf - xs), ys + sol_2 * (yf - ys))
      else none

/-- The length `((end - start).powi(2) + ...).sqrt()` computed by
`check_for_occlusion` for a ray. -/
noncomputable def ray_length (ray : ObjectRay) : ℝ :=
  Real.sqrt ((ray.end_x - ray.start_x) ^ 2 + (ray.end_y - ray.start_y) ^ 2)

/-- Body of the inner absorber loop of `check_for_occlusion`
(`src/objects/occlusion.rs`): test one ray against one absorber and
truncate the ray when the hit is strictly shorter. -/
noncomputable def occlude_ray_step (ray : ObjectRay) (absorber : Absorbers) :
    ObjectRay :=
  match occlusion absorber ray with
  | some hit_point =>
      let current_length := Real.sqrt ((ray.end_x - ray.start_x) ^ 2 +
        (ray.end_y - ray.start_y) ^ 2)
      let new_length := Real.sqrt ((hit_point.1 - ray.start_x) ^ 2 +
        (hit_point.2 - ray.start_y) ^ 2)
      if new_length < current_length then
        { ray with end_x := hit_point.1, end_y := hit_point.2 }
      else ray
  | none => ray

/-- The `for absorber in &absorbers` loop of `check_for_occlusion`,
applied to one ray. -/
noncomputable def occlude_ray (ray : ObjectRay) (absorbers : List Absorbers) :
    ObjectRay :=
  absorbers.foldl occlude_ray_step ray

/-- The absorber-collection phase of `check_for_occlusion`: filter the
absorbers out of the store. -/
def collect_absorbers (collection : List RaytracerObjects) : List Absorbers :=
  collection.filterMap fun obj =>
    match obj with
    | RaytracerObjects.Absorbers absorber => some absorber
    | _ => none

/-- Per-emitter part of `check_for_occlusion`: run every ray of the
emitter through the absorber loop. -/
noncomputable def occlude_emitter (absorbers : List Absorbers) (emitter : Emitters) :
    Emitters :=
  match emitter with
  | Emitters.EmitterIsotropic o =>
      Emitters.EmitterIsotropic { o with rays := o.rays.map (occlude_ray · absorbers) }
  | Emitters.EmitterCollimated o =>
      Emitters.EmitterCollimated { o with base_emitter :=
        { o.base_emitter with rays := o.base_emitter.rays.map (occlude_ray · absorbers) } }
  | Emitters.EmitterSpotlight o =>
      Emitters.EmitterSpotlight { o with base_emitter :=
        { o.base_emitter with rays := o.base_emitter.rays.map (occlude_ray · absorbers) } }

/-- Rust `check_for_occlusion` from `src/objects/occlusion.rs`, as a
transformation of the scene store: absorbers are collected first, then
every emitter ray is tested against every absorber; non-emitter objects
are untouched. -/
noncomputable def check_for_occlusion (collection : List RaytracerObjects) :
    List RaytracerObjects :=
  let absorbers := collect_absorbers collection
  collection.map fun obj =>
    match obj with
    | RaytracerObjects.Emitters emitter =>
        RaytracerObjects.Emitters (occlude_emitter absorbers emitter)
    | other => other

/-- The rays owned by an emitter (the `match emitter` in
`check_for_occlusion` and `change_rays_count`). -/
def Emitters.rays : Emitters → List ObjectRay
  | Emitters.EmitterIsotropic o => o.rays
  | Emitters.EmitterCollimated o => o.base_emitter.rays
  | Emitters.EmitterSpotlight o => o.base_emitter.rays

/-- Rust `Emitters::get_radius` from `src/objects/emitters.rs`. -/
def Emitters.get_radius : Emitters → ℝ
  | Emitters.EmitterIsotropic obj => obj.base_object.radius
  | Emitters.EmitterCollimated obj => obj.base_emitter.base_object.radius
  | Emitters.EmitterSpotlight obj => obj.base_emitter.base_object.radius

/-- Rust `Emitters::change_radius` from `src/objects/emitters.rs`
(`impl VariableSize for Emitters`). -/
noncomputable def Emitters.change_radius (e : Emitters) (factor : ℝ) : Emitters :=
  match e with
  | Emitters.EmitterIsotropic obj =>
      if obj.base_object.radius ≥ 30 ∧ factor < 0 then
        Emitters.EmitterIsotropic { obj with base_object :=
          { obj.base_object with radius := obj.base_object.radius + factor } }
      else if factor > 0 then
        Emitters.EmitterIsotropic { obj with base_object :=
          { obj.base_object with radius := obj.base_object.radius + factor } }
      else Emitters.EmitterIsotropic obj
  | Emitters.EmitterCollimated obj =>
      if obj.base_emitter.base_object.radius ≥ 30 ∧ factor < 0 then
        Emitters.EmitterCollimated { obj with base_emitter :=
          { obj.base_emitter with base_object :=
            { obj.base_emitter.base_object with radius :=
                obj.base_emitter.base_object.radius + factor } } }
      else if factor > 0 then
        Emitters.EmitterCollimated { obj with base_emitter :=
          { obj.base_emitter with base_object :=
            { obj.base_emitter.base_object with radius :=
                obj.base_emitter.base_object.radius + factor } } }
      else Emitters.EmitterCollimated obj
  | Emitters.EmitterSpotlight obj =>
      if obj.base_emitter.base_object.radius ≥ 30 ∧ factor < 0 then
        Emitters.EmitterSpotlight { obj with base_emitter :=
          { obj.base_emitter with base_object :=
            { obj.base_emitter.base_object with radius :=
                obj.base_emitter.base_object.radius + factor } } }
      else if factor > 0 then
        Emitters.EmitterSpotlight { obj with base_emitter :=
          { obj.base_emitter with base_object :=
            { obj.base_emitter.base_object with radius :=
                obj.base_emitter.base_object.radius + factor } } }
      else Emitters.EmitterSpotlight obj

/-- Rust `Absorbers::get_radius` from `src/objects/absorber.rs`. -/
def Absorbers.get_radius : Absorbers → ℝ
  | Absorbers.AbsorberPerfect obj => obj.base_object.radius

/-- Rust `Absorbers::change_radius` from `src/objects/absorber.rs`
(`impl VariableSize for Absorbers`). -/
noncomputable def Absorbers.change_radius (a : Absorbers) (factor : ℝ) : Absorbers :=
  match a with
  | Absorbers.AbsorberPerfect obj =>
      let new_radius := obj.base_object.radius + factor
      Absorbers.AbsorberPerfect { obj with base_object :=
        { obj.base_object with radius := if new_radius > 0 then new_radius else 0 } }

/-- The two `eprintln!` diagnostics reachable from `change_rays_count`
(`src/objects/emitters.rs`): the over-maximum warning issued by the
inner `check_rays_range`, and the below-minimum refusal of the `else`
branch. -/
inductive RayCountMessage where
  | errTooManyRays : RayCountMessage
  | errBelowMinIgnored : RayCountMessage
  | errCannotReduce : RayCountMessage
deriving DecidableEq

/-- Rust `check_rays_range`, the nested helper of `change_rays_count`;
its console output is modelled as the returned message list. -/
def check_rays_range (ray_count change_rays : ℤ) : List RayCountMessage :=
  if ray_count + change_rays > OBJC_MAX_RAY_COUNT then [RayCountMessage.errTooManyRays]
  else if ray_count + change_rays < OBJC_MIN_RAY_COUNT then [RayCountMessage.errBelowMinIgnored]
  else []

/-- Rust `Emitters::change_rays_count` from `src/objects/emitters.rs`
(`impl VariableRays for Emitters`); returns the mutated emitter together
with the diagnostics it prints. -/
noncomputable def Emitters.change_rays_count (e : Emitters) (change_rays : ℤ)
    (W H : ℝ) : Emitters × List RayCountMessage :=
  match e with
  | Emitters.EmitterIsotropic obj =>
      let ray_count : ℤ := obj.rays.length
      if ray_count + change_rays ≥ OBJC_MIN_RAY_COUNT then
        let new_rays := init_isotropic_rays obj.base_object.pos_x
          obj.base_object.pos_y (ray_count + change_rays) W H
        (Emitters.EmitterIsotropic { obj with rays := new_rays },
         check_rays_range ray_count change_rays)
      else (Emitters.EmitterIsotropic obj, [RayCountMessage.errCannotReduce])
  | Emitters.EmitterCollimated obj =>
      let ray_count : ℤ := obj.base_emitter.rays.length
      if ray_count + change_rays ≥ OBJC_MIN_RAY_COUNT then
        let new_rays := init_collimated_rays obj.base_emitter.base_object.pos_x
          obj.base_emitter.base_object.pos_y obj.orientation
          obj.collimated_beam_diameter (ray_count + change_rays) W H
        (Emitters.EmitterCollimated { obj with base_emitter :=
          { obj.base_emitter with rays := new_rays } },
         check_rays_range ray_count change_rays)
      else (Emitters.EmitterCollimated obj, [RayCountMessage.errCannotReduce])
  | Emitters.EmitterSpotlight obj =>
      let ray_count : ℤ := obj.base_emitter.rays.length
      if ray_count + change_rays ≥ OBJC_MIN_RAY_COUNT then
        let new_rays := init_spotlight_rays obj.base_emitter.base_object.pos_x
          obj.base_emitter.base_object.pos_y obj.orientation
          obj.spotlight_beam_angle (ray_count + change_rays) W H
        (Emitters.EmitterSpotlight { obj with base_emitter :=
          { obj.base_emitter with rays := new_rays } },
         check_rays_range ray_count change_rays)
      else (Emitters.EmitterSpotlight obj, [RayCountMessage.errCannotReduce])

/-- Rust `RaytracerObjects::get_pos` from `src/objects/behavior.rs`. -/
def RaytracerObjects.get_pos : RaytracerObjects → ℝ × ℝ
  | RaytracerObjects.ObjectCircle object => (object.pos_x, object.pos_y)
  | RaytracerObjects.Emitters (Emitters.EmitterIsotropic object) =>
      (object.base_object.pos_x, object.base_object.pos_y)
  | RaytracerObjects.Emitters (Emitters.EmitterCollimated object) =>
      (object.base_emitter.base_object.pos_x, object.base_emitter.base_object.pos_y)
  | RaytracerObjects.Emitters (Emitters.EmitterSpotlight object) =>
      (object.base_emitter.base_object.pos_x, object.base_emitter.base_object.pos_y)
  | RaytracerObjects.Absorbers (Absorbers.AbsorberPerfect object) =>
      (object.base_object.pos_x, object.base_object.pos_y)

/-- The radius of a scene object (per-variant `get_radius` as used by
`get_object_scope` in `src/helpers/action_utils.rs`). -/
def RaytracerObjects.obj_radius : RaytracerObjects → ℝ
  | RaytracerObjects.ObjectCircle o => o.radius
  | RaytracerObjects.Emitters e => e.get_radius
  | RaytracerObjects.Absorbers a => a.get_radius

/-- Rust `object_at_cursor_index` from `src/helpers/action_utils.rs`: linear
scan of the store, returning the index of the first object whose
`OBJC_MOUSE_EPSILON + OBJD_CIRCLE_RADIUS` box contains the cursor. -/
noncomputable def object_at_cursor_index : List RaytracerObjects → ℝ → ℝ → Option ℕ
  | [], _, _ => none
  | object :: rest, mouse_x, mouse_y =>
      if |mouse_x - object.get_pos.1| < OBJC_MOUSE_EPSILON + OBJD_CIRCLE_RADIUS ∧
         |mouse_y - object.get_pos.2| < OBJC_MOUSE_EPSILON + OBJD_CIRCLE_RADIUS
      then some 0
      else (object_at_cursor_index rest mouse_x mouse_y).map (· + 1)

/-! ### Proof infrastructure for the occlusion engine -/

/-- The discriminant computed by `occlusion`, as a standalone function. -/
noncomputable def occl_disc (pos_x pos_y radius xs ys xf yf : ℝ) : ℝ :=
  (occl_b pos_x pos_y xs ys xf yf) ^ 2 -
    4 * (occl_a xs ys xf yf) * (occl_c pos_x pos_y radius xs ys)

/-- Rust `sol_1` computed by `occlusion`, as a standalone function. -/
noncomputable def occl_sol1 (pos_x pos_y radius xs ys xf yf : ℝ) : ℝ :=
  if occl_a xs ys xf yf ≠ 0 then
    (-(occl_b pos_x pos_y xs ys xf yf) -
      Real.sqrt (occl_disc pos_x pos_y radius xs ys xf yf)) / (2 * occl_a xs ys xf yf)
  else 0

/-- Rust `sol_2` computed by `occlusion`, as a standalone function. -/
noncomputable def occl_sol2 (pos_x pos_y radius xs ys xf yf : ℝ) : ℝ :=
  if occl_a xs ys xf yf ≠ 0 then
    (-(occl_b pos_x pos_y xs ys xf yf) +
      Real.sqrt (occl_disc pos_x pos_y radius xs ys xf yf)) / (2 * occl_a xs ys xf yf)
  else 0

/-- Candidate truncation parameter of one absorber against the ray line
`t ↦ (xs + t·dx, ys + t·dy)`, restricted to `t ∈ (0, τ]`: the smaller
qualifying root of the ray/circle quadratic, mirroring the root
selection of `occlusion`. -/
noncomputable def bestT (px py r xs ys dx dy τ : ℝ) : Option ℝ :=
  if occl_disc px py r xs ys (xs + dx) (ys + dy) < 0 then none
  else if 0 < occl_sol1 px py r xs ys (xs + dx) (ys + dy) ∧
         occl_sol1 px py r xs ys (xs + dx) (ys + dy) ≤ τ then
    some (occl_sol1 px py r xs ys (xs + dx) (ys + dy))
  else if 0 < occl_sol2 px py r xs ys (xs + dx) (ys + dy) ∧
         occl_sol2 px py r xs ys (xs + dx) (ys + dy) ≤ τ then
    some (occl_sol2 px py r xs ys (xs + dx) (ys + dy))
  else none

/-- Truncation parameter after testing one absorber: the effect of one
iteration of the absorber loop of `check_for_occlusion` on the
parameter `τ` of the current ray end point along the original ray line. -/
noncomputable def stepT (px py r xs ys dx dy τ : ℝ) : ℝ :=
  match bestT px py r xs ys dx dy τ with
  | some t => if t < τ then t else τ
  | none => τ

/-- Rust `stepT` for an `Absorbers` value. -/
noncomputable def stepTA (absorber : Absorbers) (xs ys dx dy τ : ℝ) : ℝ :=
  match absorber with
  | Absorbers.AbsorberPerfect o =>
      stepT o.base_object.pos_x o.base_object.pos_y o.base_object.radius xs ys dx dy τ

/-- Truncation parameter after the whole absorber loop. -/
noncomputable def foldT (absorbers : List Absorbers) (xs ys dx dy τ : ℝ) : ℝ :=
  absorbers.foldl (fun t absorber => stepTA absorber xs ys dx dy t) τ

/-! ### Statement vocabulary for the frame-effect and hit-test claims -/

/-- What the occlusion pass may not change about a ray: its start point,
thickness and color; and its length may only shrink. -/
noncomputable def ray_shape_preserved (ray ray' : ObjectRay) : Prop :=
  ray'.start_x = ray.start_x ∧ ray'.start_y = ray.start_y ∧
  ray'.thickness = ray.thickness ∧ ray'.color = ray.color ∧
  ray_length ray' ≤ ray_length ray

/-- What the occlusion pass may not change about an emitter: its variant,
base circle (position, radius, color), orientation parameters, and the
number of its rays; every ray is shape-preserved. -/
noncomputable def emitter_frame (e e' : Emitters) : Prop :=
  match e, e' with
  | Emitters.EmitterIsotropic o, Emitters.EmitterIsotropic o' =>
      o'.base_object = o.base_object ∧ o'.rays.length = o.rays.length ∧
      List.Forall₂ ray_shape_preserved o.rays o'.rays
  | Emitters.EmitterCollimated o, Emitters.EmitterCollimated o' =>
      o'.base_emitter.base_object = o.base_emitter.base_object ∧
      o'.orientation = o.orientation ∧
      o'.collimated_beam_diameter = o.collimated_beam_diameter ∧
      o'.base_emitter.rays.length = o.base_emitter.rays.length ∧
      List.Forall₂ ray_shape_preserved o.base_emitter.rays o'.base_emitter.rays
  | Emitters.EmitterSpotlight o, Emitters.EmitterSpotlight o' =>
      o'.base_emitter.base_object = o.base_emitter.base_object ∧
      o'.orientation = o.orientation ∧
      o'.spotlight_beam_angle = o.spotlight_beam_angle ∧
      o'.base_emitter.rays.length = o.base_emitter.rays.length ∧
      List.Forall₂ ray_shape_preserved o.base_emitter.rays o'.base_emitter.rays
  | _, _ => False

/-- What the occlusion pass may not change about a scene object: plain
circles and absorbers are untouched, emitters keep their frame. -/
noncomputable def object_frame (o o' : RaytracerObjects) : Prop :=
  match o, o' with
  | RaytracerObjects.ObjectCircle c, RaytracerObjects.ObjectCircle c' => c' = c
  | RaytracerObjects.Absorbers a, RaytracerObjects.Absorbers a' => a' = a
  | RaytracerObjects.Emitters e, RaytracerObjects.Emitters e' => emitter_frame e e'
  | _, _ => False

/-- The hit-test box actually used by `object_at_cursor_index`
(`src/helpers/action_utils.rs`): epsilon plus the *default* circle
radius constant, independent of the object's own radius. -/
def cursor_hit (object : RaytracerObjects) (mouse_x mouse_y : ℝ) : Prop :=
  |mouse_x - object.get_pos.1| < OBJC_MOUSE_EPSILON + OBJD_CIRCLE_RADIUS ∧
  |mouse_y - object.get_pos.2| < OBJC_MOUSE_EPSILON + OBJD_CIRCLE_RADIUS

/-! ### Concrete scene objects used by witnesses and counterexamples -/

/-- A throwaway color value. -/
def color_zero : Color := ⟨0, 0, 0, 0⟩

/-- Absorber of radius `10` centred at the origin. -/
def absorber_big : Absorbers := Absorbers.AbsorberPerfect ⟨⟨0, 0, color_zero, 10⟩⟩

/-- A short ray from the origin to `(1, 0)`, entirely inside
`absorber_big`'s disk. -/
def ray_inside : ObjectRay := ⟨0, 0, 1, 0, 1, color_zero⟩

/-- Absorber of radius `1` centred at `(3, 0)`. -/
def absorber_near : Absorbers := Absorbers.AbsorberPerfect ⟨⟨3, 0, color_zero, 1⟩⟩

/-- Absorber of radius `1` centred at `(6, 0)`. -/
def absorber_far : Absorbers := Absorbers.AbsorberPerfect ⟨⟨6, 0, color_zero, 1⟩⟩

/-- A long ray from the origin to `(10, 0)` crossing both test absorbers. -/
def ray_long : ObjectRay := ⟨0, 0, 10, 0, 1, color_zero⟩

/-- An isotropic emitter with radius `30` and no rays. -/
def emitter_rad30 : Emitters := Emitters.EmitterIsotropic ⟨⟨0, 0, color_zero, 30⟩, []⟩

/-- An isotropic emitter with no rays (ray count `0`). -/
def emitter_empty : Emitters := Emitters.EmitterIsotropic ⟨⟨0, 0, color_zero, 0⟩, []⟩

/-- A zero-radius absorber scene object at the origin. -/
def absorber_tiny_obj : RaytracerObjects :=
  RaytracerObjects.Absorbers (Absorbers.AbsorberPerfect ⟨⟨0, 0, color_zero, 0⟩⟩)

theorem occlusion_perfect (o : ObjectCircle) (ray : ObjectRay) :
    occlusion (Absorbers.AbsorberPerfect ⟨o⟩) ray =
      (if occl_disc o.pos_x o.pos_y o.radius ray.start_x ray.start_y ray.end_x ray.end_y < 0 then none
       else if 0 < occl_sol1 o.pos_x o.pos_y o.radius ray.start_x ray.start_y ray.end_x ray.end_y ∧
              occl_sol1 o.pos_x o.pos_y o.radius ray.start_x ray.start_y ray.end_x ray.end_y ≤ 1 then
         some (ray.start_x + occl_sol1 o.pos_x o.pos_y o.radius ray.start_x ray.start_y ray.end_x ray.end_y * (ray.end_x - ray.start_x),
               ray.start_y + occl_sol1 o.pos_x o.pos_y o.radius ray.start_x ray.start_y ray.end_x ray.end_y * (ray.end_y - ray.start_y))
       else if 0 < occl_sol2 o.pos_x o.pos_y o.radius ray.start_x ray.start_y ray.end_x ray.end_y ∧
              occl_sol2 o.pos_x o.pos_y o.radius ray.start_x ray.start_y ray.end_x ray.end_y ≤ 1 then
         some (ray.start_x + occl_sol2 o.pos_x o.pos_y o.radius ray.start_x ray.start_y ray.end_x ray.end_y * (ray.end_x - ray.start_x),
               ray.start_y + occl_sol2 o.pos_x o.pos_y o.radius ray.start_x ray.start_y ray.end_x ray.end_y * (ray.end_y - ray.start_y))
       else none) := rfl

/-- A zero-length ray yields `a = 0`, `b = 0`, hence `discriminant = 0`,
both solutions `0`, and the test `0 < sol` fails: no division by zero
happens and the result is `none`. -/
theorem occlusion_degenerate_aux (occluder : Absorbers) (xs ys th : ℝ) (col : Color) :
    occlusion occluder ⟨xs, ys, xs, ys, th, col⟩ = none := by
  obtain ⟨o⟩ := occluder
  obtain ⟨oc⟩ := o
  rw [occlusion_perfect]
  have ha : occl_a xs ys xs ys = 0 := by unfold occl_a; ring
  have hd : occl_disc oc.pos_x oc.pos_y oc.radius xs ys xs ys = 0 := by
    unfold occl_disc occl_b occl_a occl_c; ring
  have hs1 : occl_sol1 oc.pos_x oc.pos_y oc.radius xs ys xs ys = 0 := by
    unfold occl_sol1; rw [if_neg]; simp [ha]
  have hs2 : occl_sol2 oc.pos_x oc.pos_y oc.radius xs ys xs ys = 0 := by
    unfold occl_sol2; rw [if_neg]; simp [ha]
  simp only [hd, hs1, hs2]
  norm_num

theorem quad_no_root {a b c : ℝ} (ha : 0 < a) (hd : b ^ 2 - 4 * a * c < 0) (t : ℝ) :
    a * t ^ 2 + b * t + c ≠ 0 := by
  intro h
  nlinarith [sq_nonneg (2 * a * t + b)]

theorem quad_root_iff {a b c : ℝ} (ha : 0 < a) (hd : 0 ≤ b ^ 2 - 4 * a * c) (t : ℝ) :
    a * t ^ 2 + b * t + c = 0 ↔
      t = (-b - Real.sqrt (b ^ 2 - 4 * a * c)) / (2 * a) ∨
      t = (-b + Real.sqrt (b ^ 2 - 4 * a * c)) / (2 * a) := by
  have hs : Real.sqrt (b ^ 2 - 4 * a * c) ^ 2 = b ^ 2 - 4 * a * c := Real.sq_sqrt hd
  constructor
  · intro h
    have h2 : (2 * a * t + b - Real.sqrt (b ^ 2 - 4 * a * c)) *
        (2 * a * t + b + Real.sqrt (b ^ 2 - 4 * a * c)) = 0 := by
      linear_combination 4 * a * h - hs
    rcases mul_eq_zero.mp h2 with h3 | h3
    · right
      field_simp
      linarith
    · left
      field_simp
      linarith
  · intro h
    rcases h with h | h <;> subst h <;> field_simp <;>
      linear_combination 2 * a ^ 2 * hs

theorem occl_a_nonneg (xs ys xf yf : ℝ) : 0 ≤ occl_a xs ys xf yf := by
  unfold occl_a; positivity

theorem occl_sol1_le_sol2 (px py r xs ys xf yf : ℝ) :
    occl_sol1 px py r xs ys xf yf ≤ occl_sol2 px py r xs ys xf yf := by
  unfold occl_sol1 occl_sol2
  by_cases ha : occl_a xs ys xf yf = 0
  · simp [ha]
  · rw [if_pos ha, if_pos ha]
    have hapos : 0 < occl_a xs ys xf yf := lt_of_le_of_ne (occl_a_nonneg xs ys xf yf) (Ne.symm ha)
    have hs := Real.sqrt_nonneg (occl_disc px py r xs ys xf yf)
    gcongr
    all_goals linarith

/-- What a successful `bestT` implies about the chosen parameter. -/
theorem bestT_some {px py r xs ys dx dy τ t : ℝ}
    (h : bestT px py r xs ys dx dy τ = some t) :
    0 < t ∧ t ≤ τ ∧ occl_a xs ys (xs + dx) (ys + dy) ≠ 0 := by
  unfold bestT at h
  by_cases ha : occl_a xs ys (xs + dx) (ys + dy) = 0
  · have h1 : occl_sol1 px py r xs ys (xs + dx) (ys + dy) = 0 := by
      unfold occl_sol1; rw [if_neg (not_not_intro ha)]
    have h2 : occl_sol2 px py r xs ys (xs + dx) (ys + dy) = 0 := by
      unfold occl_sol2; rw [if_neg (not_not_intro ha)]
    rw [h1, h2] at h
    simp at h
  · split_ifs at h with hd h1 h2
    · rcases Option.some.inj h with rfl
      exact ⟨h1.1, h1.2, ha⟩
    · rcases Option.some.inj h with rfl
      exact ⟨h2.1, h2.2, ha⟩

theorem occlusion_scaled (o : ObjectCircle) (xs ys dx dy τ th : ℝ) (col : Color)
    (hτ : 0 < τ) :
    occlusion (Absorbers.AbsorberPerfect ⟨o⟩) ⟨xs, ys, xs + τ * dx, ys + τ * dy, th, col⟩ =
      (bestT o.pos_x o.pos_y o.radius xs ys dx dy τ).map
        (fun t => (xs + t * dx, ys + t * dy)) := by
  have hτ0 : τ ≠ 0 := ne_of_gt hτ
  have hA2 : occl_a xs ys (xs + τ * dx) (ys + τ * dy) =
      τ ^ 2 * occl_a xs ys (xs + dx) (ys + dy) := by
    unfold occl_a; ring
  have hB2 : occl_b o.pos_x o.pos_y xs ys (xs + τ * dx) (ys + τ * dy) =
      τ * occl_b o.pos_x o.pos_y xs ys (xs + dx) (ys + dy) := by
    unfold occl_b; ring
  have hD2 : occl_disc o.pos_x o.pos_y o.radius xs ys (xs + τ * dx) (ys + τ * dy) =
      τ ^ 2 * occl_disc o.pos_x o.pos_y o.radius xs ys (xs + dx) (ys + dy) := by
    unfold occl_disc occl_a occl_b occl_c; ring
  have hS1 : occl_sol1 o.pos_x o.pos_y o.radius xs ys (xs + τ * dx) (ys + τ * dy) =
      occl_sol1 o.pos_x o.pos_y o.radius xs ys (xs + dx) (ys + dy) / τ := by
    unfold occl_sol1
    by_cases ha : occl_a xs ys (xs + dx) (ys + dy) = 0
    · have ha2 : occl_a xs ys (xs + τ * dx) (ys + τ * dy) = 0 := by
        rw [hA2, ha, mul_zero]
      rw [if_neg (not_not_intro ha2), if_neg (not_not_intro ha), zero_div]
    · have ha2 : occl_a xs ys (xs + τ * dx) (ys + τ * dy) ≠ 0 := by
        rw [hA2]; exact mul_ne_zero (pow_ne_zero 2 hτ0) ha
      rw [if_pos ha2, if_pos ha, hA2, hB2, hD2,
        Real.sqrt_mul (sq_nonneg τ), Real.sqrt_sq hτ.le]
      field_simp
      ring
  have hS2 : occl_sol2 o.pos_x o.pos_y o.radius xs ys (xs + τ * dx) (ys + τ * dy) =
      occl_sol2 o.pos_x o.pos_y o.radius xs ys (xs + dx) (ys + dy) / τ := by
    unfold occl_sol2
    by_cases ha : occl_a xs ys (xs + dx) (ys + dy) = 0
    · have ha2 : occl_a xs ys (xs + τ * dx) (ys + τ * dy) = 0 := by
        rw [hA2, ha, mul_zero]
      rw [if_neg (not_not_intro ha2), if_neg (not_not_intro ha), zero_div]
    · have ha2 : occl_a xs ys (xs + τ * dx) (ys + τ * dy) ≠ 0 := by
        rw [hA2]; exact mul_ne_zero (pow_ne_zero 2 hτ0) ha
      rw [if_pos ha2, if_pos ha, hA2, hB2, hD2,
        Real.sqrt_mul (sq_nonneg τ), Real.sqrt_sq hτ.le]
      field_simp
      ring
  simp only [occlusion_perfect]
  rw [hD2, hS1, hS2]
  unfold bestT
  by_cases hD : occl_disc o.pos_x o.pos_y o.radius xs ys (xs + dx) (ys + dy) < 0
  · rw [if_pos (mul_neg_of_pos_of_neg (by positivity) hD), if_pos hD]
    rfl
  · have hDge : 0 ≤ occl_disc o.pos_x o.pos_y o.radius xs ys (xs + dx) (ys + dy) :=
      le_of_not_lt hD
    have hD2n : ¬ τ ^ 2 * occl_disc o.pos_x o.pos_y o.radius xs ys (xs + dx) (ys + dy) < 0 := by
      push_neg
      positivity
    rw [if_neg hD2n, if_neg hD]
    by_cases h1 : 0 < occl_sol1 o.pos_x o.pos_y o.radius xs ys (xs + dx) (ys + dy) ∧
        occl_sol1 o.pos_x o.pos_y o.radius xs ys (xs + dx) (ys + dy) ≤ τ
    · have h1d : 0 < occl_sol1 o.pos_x o.pos_y o.radius xs ys (xs + dx) (ys + dy) / τ ∧
          occl_sol1 o.pos_x o.pos_y o.radius xs ys (xs + dx) (ys + dy) / τ ≤ 1 :=
        ⟨div_pos h1.1 hτ, (div_le_one hτ).mpr h1.2⟩
      rw [if_pos h1d, if_pos h1]
      have e1 : xs + occl_sol1 o.pos_x o.pos_y o.radius xs ys (xs + dx) (ys + dy) / τ *
          (xs + τ * dx - xs) =
          xs + occl_sol1 o.pos_x o.pos_y o.radius xs ys (xs + dx) (ys + dy) * dx := by
        field_simp
        ring
      have e2 : ys + occl_sol1 o.pos_x o.pos_y o.radius xs ys (xs + dx) (ys + dy) / τ *
          (ys + τ * dy - ys) =
          ys + occl_sol1 o.pos_x o.pos_y o.radius xs ys (xs + dx) (ys + dy) * dy := by
        field_simp
        ring
      rw [e1, e2]
      rfl
    · have h1d : ¬ (0 < occl_sol1 o.pos_x o.pos_y o.radius xs ys (xs + dx) (ys + dy) / τ ∧
          occl_sol1 o.pos_x o.pos_y o.radius xs ys (xs + dx) (ys + dy) / τ ≤ 1) := by
        intro hc
        refine h1 ⟨?_, (div_le_one hτ).mp hc.2⟩
        have := (lt_div_iff hτ).mp hc.1
        linarith
      rw [if_neg h1d, if_neg h1]
      by_cases h2 : 0 < occl_sol2 o.pos_x o.pos_y o.radius xs ys (xs + dx) (ys + dy) ∧
          occl_sol2 o.pos_x o.pos_y o.radius xs ys (xs + dx) (ys + dy) ≤ τ
      · have h2d : 0 < occl_sol2 o.pos_x o.pos_y o.radius xs ys (xs + dx) (ys + dy) / τ ∧
            occl_sol2 o.pos_x o.pos_y o.radius xs ys (xs + dx) (ys + dy) / τ ≤ 1 :=
          ⟨div_pos h2.1 hτ, (div_le_one hτ).mpr h2.2⟩
        rw [if_pos h2d, if_pos h2]
        have e1 : xs + occl_sol2 o.pos_x o.pos_y o.radius xs ys (xs + dx) (ys + dy) / τ *
            (xs + τ * dx - xs) =
            xs + occl_sol2 o.pos_x o.pos_y o.radius xs ys (xs + dx) (ys + dy) * dx := by
          field_simp
          ring
        have e2 : ys + occl_sol2 o.pos_x o.pos_y o.radius xs ys (xs + dx) (ys + dy) / τ *
            (ys + τ * dy - ys) =
            ys + occl_sol2 o.pos_x o.pos_y o.radius xs ys (xs + dx) (ys + dy) * dy := by
          field_simp
          ring
        rw [e1, e2]
        rfl
      · have h2d : ¬ (0 < occl_sol2 o.pos_x o.pos_y o.radius xs ys (xs + dx) (ys + dy) / τ ∧
            occl_sol2 o.pos_x o.pos_y o.radius xs ys (xs + dx) (ys + dy) / τ ≤ 1) := by
          intro hc
          refine h2 ⟨?_, (div_le_one hτ).mp hc.2⟩
          have := (lt_div_iff hτ).mp hc.1
          linarith
        rw [if_neg h2d, if_neg h2]
        rfl

theorem stepT_of_none {px py r xs ys dx dy τ : ℝ}
    (h : bestT px py r xs ys dx dy τ = none) :
    stepT px py r xs ys dx dy τ = τ := by
  unfold stepT
  rw [h]

theorem stepT_of_some {px py r xs ys dx dy τ t : ℝ}
    (h : bestT px py r xs ys dx dy τ = some t) :
    stepT px py r xs ys dx dy τ = if t < τ then t else τ := by
  unfold stepT
  rw [h]

theorem stepT_le (px py r xs ys dx dy τ : ℝ) :
    stepT px py r xs ys dx dy τ ≤ τ := by
  cases h : bestT px py r xs ys dx dy τ with
  | none => rw [stepT_of_none h]
  | some t =>
      rw [stepT_of_some h]
      rcases bestT_some h with ⟨-, ht, -⟩
      split_ifs <;> linarith

theorem stepT_pos {px py r xs ys dx dy τ : ℝ} (hτ : 0 < τ) :
    0 < stepT px py r xs ys dx dy τ := by
  cases h : bestT px py r xs ys dx dy τ with
  | none => rw [stepT_of_none h]; exact hτ
  | some t =>
      rw [stepT_of_some h]
      rcases bestT_some h with ⟨ht, -, -⟩
      split_ifs <;> linarith

theorem stepT_nonpos {px py r xs ys dx dy τ : ℝ} (hτ : τ ≤ 0) :
    stepT px py r xs ys dx dy τ = τ := by
  cases h : bestT px py r xs ys dx dy τ with
  | none => exact stepT_of_none h
  | some t =>
      rcases bestT_some h with ⟨ht0, htτ, -⟩
      linarith

theorem step_min_core {S σ τ : ℝ} (hστ : σ ≤ τ) (hS : S ≤ σ) :
    (if S < σ then S else σ) = min σ (if S < τ then S else τ) := by
  by_cases hlt : S < σ
  · rw [if_pos hlt, if_pos (hlt.trans_le hστ), min_eq_right hlt.le]
  · have heq : S = σ := le_antisymm hS (not_lt.mp hlt)
    subst heq
    rw [if_neg hlt]
    by_cases hlt2 : S < τ
    · rw [if_pos hlt2, min_self]
    · rw [if_neg hlt2, min_eq_left hστ]

theorem step_skip_core {S σ τ : ℝ} (hστ : σ ≤ τ) (hσS : σ < S) :
    σ = min σ (if S < τ then S else τ) := by
  by_cases h : S < τ
  · rw [if_pos h, min_eq_left hσS.le]
  · rw [if_neg h, min_eq_left hστ]

theorem bestT_of_neg_disc {px py r xs ys dx dy : ℝ} (τ : ℝ)
    (h : occl_disc px py r xs ys (xs + dx) (ys + dy) < 0) :
    bestT px py r xs ys dx dy τ = none := by
  unfold bestT
  rw [if_pos h]

theorem bestT_of_sol1 {px py r xs ys dx dy τ : ℝ}
    (hD : ¬ occl_disc px py r xs ys (xs + dx) (ys + dy) < 0)
    (h1 : 0 < occl_sol1 px py r xs ys (xs + dx) (ys + dy) ∧
      occl_sol1 px py r xs ys (xs + dx) (ys + dy) ≤ τ) :
    bestT px py r xs ys dx dy τ = some (occl_sol1 px py r xs ys (xs + dx) (ys + dy)) := by
  unfold bestT
  rw [if_neg hD, if_pos h1]

theorem bestT_of_sol2 {px py r xs ys dx dy τ : ℝ}
    (hD : ¬ occl_disc px py r xs ys (xs + dx) (ys + dy) < 0)
    (h1 : ¬ (0 < occl_sol1 px py r xs ys (xs + dx) (ys + dy) ∧
      occl_sol1 px py r xs ys (xs + dx) (ys + dy) ≤ τ))
    (h2 : 0 < occl_sol2 px py r xs ys (xs + dx) (ys + dy) ∧
      occl_sol2 px py r xs ys (xs + dx) (ys + dy) ≤ τ) :
    bestT px py r xs ys dx dy τ = some (occl_sol2 px py r xs ys (xs + dx) (ys + dy)) := by
  unfold bestT
  rw [if_neg hD, if_neg h1, if_pos h2]

theorem bestT_of_no_sol {px py r xs ys dx dy τ : ℝ}
    (hD : ¬ occl_disc px py r xs ys (xs + dx) (ys + dy) < 0)
    (h1 : ¬ (0 < occl_sol1 px py r xs ys (xs + dx) (ys + dy) ∧
      occl_sol1 px py r xs ys (xs + dx) (ys + dy) ≤ τ))
    (h2 : ¬ (0 < occl_sol2 px py r xs ys (xs + dx) (ys + dy) ∧
      occl_sol2 px py r xs ys (xs + dx) (ys + dy) ≤ τ)) :
    bestT px py r xs ys dx dy τ = none := by
  unfold bestT
  rw [if_neg hD, if_neg h1, if_neg h2]

/-- Key order lemma: testing an absorber at a tighter truncation `σ ≤ τ`
gives the same result as testing it at `τ` and capping at `σ`. -/
theorem stepT_min (px py r xs ys dx dy : ℝ) {σ τ : ℝ} (hσ : 0 < σ) (hστ : σ ≤ τ) :
    stepT px py r xs ys dx dy σ = min σ (stepT px py r xs ys dx dy τ) := by
  have h12 := occl_sol1_le_sol2 px py r xs ys (xs + dx) (ys + dy)
  by_cases hD : occl_disc px py r xs ys (xs + dx) (ys + dy) < 0
  · rw [stepT_of_none (bestT_of_neg_disc σ hD), stepT_of_none (bestT_of_neg_disc τ hD)]
    exact (min_eq_left hστ).symm
  · by_cases h1 : 0 < occl_sol1 px py r xs ys (xs + dx) (ys + dy) ∧
        occl_sol1 px py r xs ys (xs + dx) (ys + dy) ≤ σ
    · have h1τ : 0 < occl_sol1 px py r xs ys (xs + dx) (ys + dy) ∧
          occl_sol1 px py r xs ys (xs + dx) (ys + dy) ≤ τ := ⟨h1.1, h1.2.trans hστ⟩
      rw [stepT_of_some (bestT_of_sol1 hD h1), stepT_of_some (bestT_of_sol1 hD h1τ)]
      exact step_min_core hστ h1.2
    · by_cases h2 : 0 < occl_sol2 px py r xs ys (xs + dx) (ys + dy) ∧
          occl_sol2 px py r xs ys (xs + dx) (ys + dy) ≤ σ
      · have hS1np : occl_sol1 px py r xs ys (xs + dx) (ys + dy) ≤ 0 := by
          by_contra hc
          push_neg at hc
          exact h1 ⟨hc, h12.trans h2.2⟩
        have h1τ : ¬ (0 < occl_sol1 px py r xs ys (xs + dx) (ys + dy) ∧
            occl_sol1 px py r xs ys (xs + dx) (ys + dy) ≤ τ) := by
          intro hc
          linarith [hc.1]
        have h2τ : 0 < occl_sol2 px py r xs ys (xs + dx) (ys + dy) ∧
            occl_sol2 px py r xs ys (xs + dx) (ys + dy) ≤ τ := ⟨h2.1, h2.2.trans hστ⟩
        rw [stepT_of_some (bestT_of_sol2 hD h1 h2),
          stepT_of_some (bestT_of_sol2 hD h1τ h2τ)]
        exact step_min_core hστ h2.2
      · by_cases h1τ : 0 < occl_sol1 px py r xs ys (xs + dx) (ys + dy) ∧
            occl_sol1 px py r xs ys (xs + dx) (ys + dy) ≤ τ
        · rw [stepT_of_none (bestT_of_no_sol hD h1 h2),
            stepT_of_some (bestT_of_sol1 hD h1τ)]
          have hσS : σ < occl_sol1 px py r xs ys (xs + dx) (ys + dy) := by
            by_contra hc
            push_neg at hc
            exact h1 ⟨h1τ.1, hc⟩
          exact step_skip_core hστ hσS
        · by_cases h2τ : 0 < occl_sol2 px py r xs ys (xs + dx) (ys + dy) ∧
              occl_sol2 px py r xs ys (xs + dx) (ys + dy) ≤ τ
          · rw [stepT_of_none (bestT_of_no_sol hD h1 h2),
              stepT_of_some (bestT_of_sol2 hD h1τ h2τ)]
            have hσS : σ < occl_sol2 px py r xs ys (xs + dx) (ys + dy) := by
              by_contra hc
              push_neg at hc
              exact h2 ⟨h2τ.1, hc⟩
            exact step_skip_core hστ hσS
          · rw [stepT_of_none (bestT_of_no_sol hD h1 h2),
              stepT_of_none (bestT_of_no_sol hD h1τ h2τ)]
            exact (min_eq_left hστ).symm

theorem stepT_idem (px py r xs ys dx dy : ℝ) {τ : ℝ} (hτ : 0 < τ) :
    stepT px py r xs ys dx dy (stepT px py r xs ys dx dy τ) =
      stepT px py r xs ys dx dy τ := by
  rw [stepT_min px py r xs ys dx dy (stepT_pos hτ) (stepT_le px py r xs ys dx dy τ),
    min_self]

theorem stepT_comm (px py r qx qy s xs ys dx dy τ : ℝ) :
    stepT px py r xs ys dx dy (stepT qx qy s xs ys dx dy τ) =
      stepT qx qy s xs ys dx dy (stepT px py r xs ys dx dy τ) := by
  rcases le_or_lt τ 0 with hτ | hτ
  · simp only [stepT_nonpos hτ]
  · rw [stepT_min px py r xs ys dx dy (stepT_pos hτ) (stepT_le qx qy s xs ys dx dy τ),
      stepT_min qx qy s xs ys dx dy (stepT_pos hτ) (stepT_le px py r xs ys dx dy τ),
      min_comm]

theorem occlude_ray_step_of_none {ray : ObjectRay} {A : Absorbers}
    (h : occlusion A ray = none) : occlude_ray_step ray A = ray := by
  unfold occlude_ray_step
  rw [h]

theorem occlude_ray_step_of_some {A : Absorbers} {sx sy ex ey th p1 p2 : ℝ} {col : Color}
    (h : occlusion A ⟨sx, sy, ex, ey, th, col⟩ = some (p1, p2)) :
    occlude_ray_step ⟨sx, sy, ex, ey, th, col⟩ A =
      if Real.sqrt ((p1 - sx) ^ 2 + (p2 - sy) ^ 2) <
          Real.sqrt ((ex - sx) ^ 2 + (ey - sy) ^ 2)
      then ⟨sx, sy, p1, p2, th, col⟩ else ⟨sx, sy, ex, ey, th, col⟩ := by
  unfold occlude_ray_step
  rw [h]

/-- One absorber-loop iteration, on a ray whose end point sits at
parameter `τ > 0` along the line through `(xs, ys)` with direction
`(dx, dy)`: the iteration moves the parameter to `stepT`. -/
theorem occlude_ray_step_repr (o : ObjectCircle) (xs ys dx dy τ th : ℝ) (col : Color)
    (hτ : 0 < τ) :
    occlude_ray_step ⟨xs, ys, xs + τ * dx, ys + τ * dy, th, col⟩
        (Absorbers.AbsorberPerfect ⟨o⟩) =
      ⟨xs, ys, xs + stepT o.pos_x o.pos_y o.radius xs ys dx dy τ * dx,
        ys + stepT o.pos_x o.pos_y o.radius xs ys dx dy τ * dy, th, col⟩ := by
  cases hbt : bestT o.pos_x o.pos_y o.radius xs ys dx dy τ with
  | none =>
      have hocc : occlusion (Absorbers.AbsorberPerfect ⟨o⟩)
          ⟨xs, ys, xs + τ * dx, ys + τ * dy, th, col⟩ = none := by
        rw [occlusion_scaled o xs ys dx dy τ th col hτ, hbt]
        rfl
      rw [occlude_ray_step_of_none hocc, stepT_of_none hbt]
  | some t =>
      rcases bestT_some hbt with ⟨ht0, htτ, hA⟩
      have hApos : 0 < occl_a xs ys (xs + dx) (ys + dy) :=
        lt_of_le_of_ne (occl_a_nonneg _ _ _ _) (Ne.symm hA)
      have hsq : 0 < Real.sqrt (occl_a xs ys (xs + dx) (ys + dy)) :=
        Real.sqrt_pos.mpr hApos
      have hocc : occlusion (Absorbers.AbsorberPerfect ⟨o⟩)
          ⟨xs, ys, xs + τ * dx, ys + τ * dy, th, col⟩ =
          some (xs + t * dx, ys + t * dy) := by
        rw [occlusion_scaled o xs ys dx dy τ th col hτ, hbt]
        rfl
      rw [occlude_ray_step_of_some hocc]
      have e1 : (xs + t * dx - xs) ^ 2 + (ys + t * dy - ys) ^ 2 =
          t ^ 2 * occl_a xs ys (xs + dx) (ys + dy) := by
        unfold occl_a
        ring
      have e2 : (xs + τ * dx - xs) ^ 2 + (ys + τ * dy - ys) ^ 2 =
          τ ^ 2 * occl_a xs ys (xs + dx) (ys + dy) := by
        unfold occl_a
        ring
      rw [e1, e2, Real.sqrt_mul (sq_nonneg t), Real.sqrt_mul (sq_nonneg τ),
        Real.sqrt_sq ht0.le, Real.sqrt_sq hτ.le, stepT_of_some hbt]
      by_cases hlt : t < τ
      · rw [if_pos ((mul_lt_mul_right hsq).mpr hlt)]
        simp only [if_pos hlt]
      · rw [if_neg (fun hc => hlt ((mul_lt_mul_right hsq).mp hc))]
        simp only [if_neg hlt]

/-- Two consecutive absorber tests on the same ray commute. -/
theorem occlude_ray_step_comm (ray : ObjectRay) (A B : Absorbers) :
    occlude_ray_step (occlude_ray_step ray A) B =
      occlude_ray_step (occlude_ray_step ray B) A := by
  obtain ⟨oA⟩ := A
  obtain ⟨ocA⟩ := oA
  obtain ⟨oB⟩ := B
  obtain ⟨ocB⟩ := oB
  obtain ⟨xs, ys, ex, ey, th, col⟩ := ray
  have h1 : (⟨xs, ys, ex, ey, th, col⟩ : ObjectRay) =
      ⟨xs, ys, xs + 1 * (ex - xs), ys + 1 * (ey - ys), th, col⟩ := by
    congr 1 <;> ring
  rw [h1,
    occlude_ray_step_repr ocA xs ys (ex - xs) (ey - ys) 1 th col one_pos,
    occlude_ray_step_repr ocB xs ys (ex - xs) (ey - ys) 1 th col one_pos,
    occlude_ray_step_repr ocB xs ys (ex - xs) (ey - ys)
      (stepT ocA.pos_x ocA.pos_y ocA.radius xs ys (ex - xs) (ey - ys) 1) th col
      (stepT_pos one_pos),
    occlude_ray_step_repr ocA xs ys (ex - xs) (ey - ys)
      (stepT ocB.pos_x ocB.pos_y ocB.radius xs ys (ex - xs) (ey - ys) 1) th col
      (stepT_pos one_pos),
    stepT_comm ocB.pos_x ocB.pos_y ocB.radius ocA.pos_x ocA.pos_y ocA.radius
      xs ys (ex - xs) (ey - ys) 1]

theorem stepTA_le (A : Absorbers) (xs ys dx dy τ : ℝ) :
    stepTA A xs ys dx dy τ ≤ τ := by
  obtain ⟨⟨oc⟩⟩ := A
  exact stepT_le oc.pos_x oc.pos_y oc.radius xs ys dx dy τ

theorem stepTA_pos (A : Absorbers) {xs ys dx dy τ : ℝ} (hτ : 0 < τ) :
    0 < stepTA A xs ys dx dy τ := by
  obtain ⟨⟨oc⟩⟩ := A
  exact stepT_pos hτ

theorem stepTA_min (A : Absorbers) (xs ys dx dy : ℝ) {σ τ : ℝ}
    (hσ : 0 < σ) (hστ : σ ≤ τ) :
    stepTA A xs ys dx dy σ = min σ (stepTA A xs ys dx dy τ) := by
  obtain ⟨⟨oc⟩⟩ := A
  exact stepT_min oc.pos_x oc.pos_y oc.radius xs ys dx dy hσ hστ

theorem stepTA_idem (A : Absorbers) (xs ys dx dy : ℝ) {τ : ℝ} (hτ : 0 < τ) :
    stepTA A xs ys dx dy (stepTA A xs ys dx dy τ) = stepTA A xs ys dx dy τ := by
  obtain ⟨⟨oc⟩⟩ := A
  exact stepT_idem oc.pos_x oc.pos_y oc.radius xs ys dx dy hτ

theorem foldT_le (l : List Absorbers) (xs ys dx dy : ℝ) :
    ∀ τ, foldT l xs ys dx dy τ ≤ τ := by
  induction l with
  | nil => intro τ; exact le_refl τ
  | cons A rest ih =>
      intro τ
      exact le_trans (ih (stepTA A xs ys dx dy τ)) (stepTA_le A xs ys dx dy τ)

theorem foldT_pos (l : List Absorbers) (xs ys dx dy : ℝ) :
    ∀ τ, 0 < τ → 0 < foldT l xs ys dx dy τ := by
  induction l with
  | nil => intro τ hτ; exact hτ
  | cons A rest ih =>
      intro τ hτ
      exact ih (stepTA A xs ys dx dy τ) (stepTA_pos A hτ)

theorem foldT_fix (l : List Absorbers) (xs ys dx dy : ℝ) :
    ∀ τ, 0 < τ → ∀ A ∈ l,
      stepTA A xs ys dx dy (foldT l xs ys dx dy τ) = foldT l xs ys dx dy τ := by
  induction l with
  | nil => intro τ hτ A hA; exact absurd hA (List.not_mem_nil A)
  | cons B rest ih =>
      intro τ hτ A hA
      have hσ : 0 < stepTA B xs ys dx dy τ := stepTA_pos B hτ
      rcases List.mem_cons.mp hA with rfl | hA
      · show stepTA A xs ys dx dy (foldT rest xs ys dx dy (stepTA A xs ys dx dy τ)) = _
        have hle : foldT rest xs ys dx dy (stepTA A xs ys dx dy τ) ≤
            stepTA A xs ys dx dy τ := foldT_le rest xs ys dx dy _
        have hp : 0 < foldT rest xs ys dx dy (stepTA A xs ys dx dy τ) :=
          foldT_pos rest xs ys dx dy _ hσ
        rw [stepTA_min A xs ys dx dy hp hle, stepTA_idem A xs ys dx dy hτ]
        exact min_eq_left hle
      · exact ih (stepTA B xs ys dx dy τ) hσ A hA

theorem foldT_of_fix (l : List Absorbers) (xs ys dx dy : ℝ) :
    ∀ σ, (∀ A ∈ l, stepTA A xs ys dx dy σ = σ) → foldT l xs ys dx dy σ = σ := by
  induction l with
  | nil => intro σ _; rfl
  | cons B rest ih =>
      intro σ hfix
      show foldT rest xs ys dx dy (stepTA B xs ys dx dy σ) = σ
      rw [hfix B (List.mem_cons_self B rest)]
      exact ih σ (fun A hA => hfix A (List.mem_cons_of_mem B hA))

theorem foldT_idem (l : List Absorbers) (xs ys dx dy : ℝ) {τ : ℝ} (hτ : 0 < τ) :
    foldT l xs ys dx dy (foldT l xs ys dx dy τ) = foldT l xs ys dx dy τ :=
  foldT_of_fix l xs ys dx dy _ (foldT_fix l xs ys dx dy τ hτ)

/-- The whole absorber loop, on a parametrized ray: the fold of `stepT`. -/
theorem occlude_ray_param (l : List Absorbers) (xs ys dx dy th : ℝ) (col : Color) :
    ∀ τ, 0 < τ →
      occlude_ray ⟨xs, ys, xs + τ * dx, ys + τ * dy, th, col⟩ l =
        ⟨xs, ys, xs + foldT l xs ys dx dy τ * dx,
          ys + foldT l xs ys dx dy τ * dy, th, col⟩ := by
  induction l with
  | nil => intro τ hτ; rfl
  | cons A rest ih =>
      intro τ hτ
      have hstep : occlude_ray_step ⟨xs, ys, xs + τ * dx, ys + τ * dy, th, col⟩ A =
          ⟨xs, ys, xs + stepTA A xs ys dx dy τ * dx,
            ys + stepTA A xs ys dx dy τ * dy, th, col⟩ := by
        obtain ⟨oA⟩ := A
        obtain ⟨ocA⟩ := oA
        exact occlude_ray_step_repr ocA xs ys dx dy τ th col hτ
      show occlude_ray (occlude_ray_step ⟨xs, ys, xs + τ * dx, ys + τ * dy, th, col⟩ A)
        rest = _
      rw [hstep]
      exact ih (stepTA A xs ys dx dy τ) (stepTA_pos A hτ)

/-- The absorber loop is idempotent on every ray. -/
theorem occlude_ray_idem (ray : ObjectRay) (l : List Absorbers) :
    occlude_ray (occlude_ray ray l) l = occlude_ray ray l := by
  obtain ⟨xs, ys, ex, ey, th, col⟩ := ray
  have h1 : (⟨xs, ys, ex, ey, th, col⟩ : ObjectRay) =
      ⟨xs, ys, xs + 1 * (ex - xs), ys + 1 * (ey - ys), th, col⟩ := by
    congr 1 <;> ring
  rw [h1, occlude_ray_param l xs ys (ex - xs) (ey - ys) th col 1 one_pos,
    occlude_ray_param l xs ys (ex - xs) (ey - ys) th col _
      (foldT_pos l xs ys (ex - xs) (ey - ys) 1 one_pos),
    foldT_idem l xs ys (ex - xs) (ey - ys) one_pos]

theorem check_map (st : List RaytracerObjects) :
    check_for_occlusion st = st.map (fun obj =>
      match obj with
      | RaytracerObjects.Emitters emitter =>
          RaytracerObjects.Emitters (occlude_emitter (collect_absorbers st) emitter)
      | other => other) := rfl

theorem collect_absorbers_map (g : Emitters → Emitters) (st : List RaytracerObjects) :
    collect_absorbers (st.map (fun obj =>
      match obj with
      | RaytracerObjects.Emitters emitter => RaytracerObjects.Emitters (g emitter)
      | other => other)) = collect_absorbers st := by
  induction st with
  | nil => rfl
  | cons o rest ih =>
      cases o with
      | ObjectCircle c => exact ih
      | Emitters e => exact ih
      | Absorbers a => exact congrArg (List.cons a) ih

theorem occlude_emitter_idem (absorbers : List Absorbers) (e : Emitters) :
    occlude_emitter absorbers (occlude_emitter absorbers e) =
      occlude_emitter absorbers e := by
  cases e with
  | EmitterIsotropic o =>
      refine congrArg Emitters.EmitterIsotropic ?_
      refine congrArg (EmitterIsotropic.mk o.base_object) ?_
      rw [List.map_map]
      exact List.map_congr_left fun r _ => occlude_ray_idem r absorbers
  | EmitterCollimated o =>
      refine congrArg Emitters.EmitterCollimated ?_
      refine congrArg (fun rays => EmitterCollimated.mk
        (EmitterIsotropic.mk o.base_emitter.base_object rays)
        o.orientation o.collimated_beam_diameter) ?_
      rw [List.map_map]
      exact List.map_congr_left fun r _ => occlude_ray_idem r absorbers
  | EmitterSpotlight o =>
      refine congrArg Emitters.EmitterSpotlight ?_
      refine congrArg (fun rays => EmitterSpotlight.mk
        (EmitterIsotropic.mk o.base_emitter.base_object rays)
        o.orientation o.spotlight_beam_angle) ?_
      rw [List.map_map]
      exact List.map_congr_left fun r _ => occlude_ray_idem r absorbers

theorem ray_shape_preserved_refl (r : ObjectRay) : ray_shape_preserved r r :=
  ⟨rfl, rfl, rfl, rfl, le_refl _⟩

theorem ray_shape_preserved_trans {r₁ r₂ r₃ : ObjectRay}
    (h12 : ray_shape_preserved r₁ r₂) (h23 : ray_shape_preserved r₂ r₃) :
    ray_shape_preserved r₁ r₃ :=
  ⟨h23.1.trans h12.1, h23.2.1.trans h12.2.1, h23.2.2.1.trans h12.2.2.1,
    h23.2.2.2.1.trans h12.2.2.2.1, h23.2.2.2.2.trans h12.2.2.2.2⟩

theorem occlude_ray_step_shape (r : ObjectRay) (A : Absorbers) :
    ray_shape_preserved r (occlude_ray_step r A) := by
  obtain ⟨sx, sy, ex, ey, th, col⟩ := r
  cases h : occlusion A ⟨sx, sy, ex, ey, th, col⟩ with
  | none => rw [occlude_ray_step_of_none h]; exact ray_shape_preserved_refl _
  | some p =>
      obtain ⟨p1, p2⟩ := p
      rw [occlude_ray_step_of_some h]
      by_cases hlt : Real.sqrt ((p1 - sx) ^ 2 + (p2 - sy) ^ 2) <
          Real.sqrt ((ex - sx) ^ 2 + (ey - sy) ^ 2)
      · rw [if_pos hlt]
        exact ⟨rfl, rfl, rfl, rfl, le_of_lt hlt⟩
      · rw [if_neg hlt]
        exact ray_shape_preserved_refl _

theorem occlude_ray_shape (l : List Absorbers) :
    ∀ r : ObjectRay, ray_shape_preserved r (occlude_ray r l) := by
  induction l with
  | nil => intro r; exact ray_shape_preserved_refl r
  | cons A rest ih =>
      intro r
      exact ray_shape_preserved_trans (occlude_ray_step_shape r A)
        (ih (occlude_ray_step r A))

theorem forall₂_map_self {α β : Type} (P : α → β → Prop) (f : α → β) :
    ∀ l : List α, (∀ x ∈ l, P x (f x)) → List.Forall₂ P l (l.map f) := by
  intro l
  induction l with
  | nil => intro _; exact List.Forall₂.nil
  | cons x rest ih =>
      intro h
      exact List.Forall₂.cons (h x (List.mem_cons_self x rest))
        (ih (fun y hy => h y (List.mem_cons_of_mem x hy)))

theorem occlude_emitter_frame (absorbers : List Absorbers) (e : Emitters) :
    emitter_frame e (occlude_emitter absorbers e) := by
  cases e with
  | EmitterIsotropic o =>
      exact ⟨rfl, List.length_map _ _,
        forall₂_map_self _ _ _ (fun r _ => occlude_ray_shape absorbers r)⟩
  | EmitterCollimated o =>
      exact ⟨rfl, rfl, rfl, List.length_map _ _,
        forall₂_map_self _ _ _ (fun r _ => occlude_ray_shape absorbers r)⟩
  | EmitterSpotlight o =>
      exact ⟨rfl, rfl, rfl, List.length_map _ _,
        forall₂_map_self _ _ _ (fun r _ => occlude_ray_shape absorbers r)⟩

/-! ### Claim theorems -/

/-- Claim C9 (confirmed): for every absorber circle and every degenerate
zero-length ray (start point equal to end point, so `a = d·d = 0`),
`occlusion` returns `none`.  The `a != 0.0` guards in the code make both
solutions `0`, no division by zero is performed, and `0 < 0` fails. -/
theorem C9_occlusion_degenerate_ray (occluder : Absorbers) (px py th : ℝ)
    (col : Color) :
    occlusion occluder ⟨px, py, px, py, th, col⟩ = none :=
  occlusion_degenerate_aux occluder px py th col

/-- Claim C3 (confirmed): running `check_for_occlusion` twice in
succession with no intervening mutation yields the same store (hence the
same ray endpoints) as running it once. -/
theorem C3_check_for_occlusion_idempotent (st : List RaytracerObjects) :
    check_for_occlusion (check_for_occlusion st) = check_for_occlusion st := by
  conv_lhs => rw [check_map (check_for_occlusion st)]
  rw [show collect_absorbers (check_for_occlusion st) = collect_absorbers st from by
    rw [check_map st]
    exact collect_absorbers_map _ st]
  rw [check_map st, List.map_map]
  refine List.map_congr_left ?_
  intro obj _
  cases obj with
  | ObjectCircle c => rfl
  | Absorbers a => rfl
  | Emitters e => exact congrArg RaytracerObjects.Emitters (occlude_emitter_idem _ e)

/-- Claim C10 (confirmed): the occlusion pass `check_for_occlusion`
modifies at most the end coordinates of emitter rays: the store's length
(and object order) is preserved, each object keeps its kind, base circle
(position, radius, color) and orientation parameters, each emitter keeps
its number of rays, each ray keeps its start point, thickness and color,
and no ray's length increases. -/
theorem C10_check_for_occlusion_frame (st : List RaytracerObjects) :
    (check_for_occlusion st).length = st.length ∧
      List.Forall₂ object_frame st (check_for_occlusion st) := by
  constructor
  · rw [check_map st]
    exact List.length_map _ _
  · rw [check_map st]
    refine forall₂_map_self _ _ _ ?_
    intro obj _
    cases obj with
    | ObjectCircle c => exact rfl
    | Absorbers a => exact rfl
    | Emitters e => exact occlude_emitter_frame _ e

/-- Claim C2 (confirmed): the per-ray absorber loop of
`check_for_occlusion` gives the same final ray for any permutation of
the absorber list: each candidate truncation is applied only when
strictly shorter than the ray's current length, so the result is the
minimum over all valid candidates and is order-independent. -/
theorem C2_occlusion_pass_order_independent (ray : ObjectRay)
    (l₁ l₂ : List Absorbers) (h : l₁.Perm l₂) :
    occlude_ray ray l₁ = occlude_ray ray l₂ :=
  List.Perm.foldl_eq' h (fun x _ y _ z => occlude_ray_step_comm z x y) ray

theorem C2_witness :
    occlude_ray ray_long [absorber_near, absorber_far] =
      occlude_ray ray_long [absorber_far, absorber_near] :=
  C2_occlusion_pass_order_independent ray_long [absorber_near, absorber_far]
    [absorber_far, absorber_near] (List.Perm.swap absorber_far absorber_near [])

/-- Claim C1, counterexample: the claim as stated is false.  For the
absorber disk of radius `10` centred at the origin and the ray from
`(0,0)` to `(1,0)`, the segment lies entirely inside the disk — its end
point `(1,0)` satisfies the disk inequality — so the disk intersects
the segment, yet `occlusion` returns `none` (both roots `-10` and `10`
fall outside `(0, 1]`). -/
theorem C1_counterexample :
    occlusion absorber_big ray_inside = none ∧
      ((0 : ℝ) + 1 * (1 - 0) - 0) ^ 2 + ((0 : ℝ) + 1 * (0 - 0) - 0) ^ 2 ≤ 10 ^ 2 := by
  constructor
  · show occlusion (Absorbers.AbsorberPerfect ⟨⟨0, 0, color_zero, 10⟩⟩)
      ⟨0, 0, 1, 0, 1, color_zero⟩ = none
    rw [occlusion_perfect]
    have hd : occl_disc (0 : ℝ) 0 10 0 0 1 0 = 400 := by
      unfold occl_disc occl_a occl_b occl_c
      norm_num
    have hsq : Real.sqrt 400 = 20 := by
      rw [show (400 : ℝ) = 20 ^ 2 by norm_num, Real.sqrt_sq (by norm_num : (0:ℝ) ≤ 20)]
    have ha : occl_a (0 : ℝ) 0 1 0 = 1 := by
      unfold occl_a
      norm_num
    have hs1 : occl_sol1 (0 : ℝ) 0 10 0 0 1 0 = -10 := by
      unfold occl_sol1
      rw [if_pos (by rw [ha]; norm_num : occl_a (0 : ℝ) 0 1 0 ≠ 0), ha, hd, hsq]
      unfold occl_b
      norm_num
    have hs2 : occl_sol2 (0 : ℝ) 0 10 0 0 1 0 = 10 := by
      unfold occl_sol2
      rw [if_pos (by rw [ha]; norm_num : occl_a (0 : ℝ) 0 1 0 ≠ 0), ha, hd, hsq]
      unfold occl_b
      norm_num
    rw [hd, hs1, hs2]
    norm_num
  · norm_num

/-- Claim C1 (amended): for every absorber circle and every
non-degenerate ray (`a = d·d ≠ 0`), `occlusion` returns `none` exactly
when the segment has no intersection with the disk *boundary* at a
parameter `t ∈ (0, 1]` (in particular a segment strictly inside the
disk yields `none`), and any returned point is the boundary
intersection with the smallest such parameter (the smaller quadratic
root is preferred when both qualify). -/
theorem C1_occlusion_boundary_spec (circ : ObjectCircle) (sx sy ex ey th : ℝ)
    (col : Color) (hnd : occl_a sx sy ex ey ≠ 0) :
    (occlusion (Absorbers.AbsorberPerfect ⟨circ⟩) ⟨sx, sy, ex, ey, th, col⟩ = none ↔
      ¬ ∃ t : ℝ, 0 < t ∧ t ≤ 1 ∧
        (sx + t * (ex - sx) - circ.pos_x) ^ 2 + (sy + t * (ey - sy) - circ.pos_y) ^ 2 =
          circ.radius ^ 2) ∧
    (∀ p : ℝ × ℝ,
      occlusion (Absorbers.AbsorberPerfect ⟨circ⟩) ⟨sx, sy, ex, ey, th, col⟩ = some p →
      ∃ t : ℝ, 0 < t ∧ t ≤ 1 ∧
        (sx + t * (ex - sx) - circ.pos_x) ^ 2 + (sy + t * (ey - sy) - circ.pos_y) ^ 2 =
          circ.radius ^ 2 ∧
        p = (sx + t * (ex - sx), sy + t * (ey - sy)) ∧
        ∀ u : ℝ, 0 < u → u ≤ 1 →
          (sx + u * (ex - sx) - circ.pos_x) ^ 2 + (sy + u * (ey - sy) - circ.pos_y) ^ 2 =
            circ.radius ^ 2 → t ≤ u) := by
  have hApos : 0 < occl_a sx sy ex ey :=
    lt_of_le_of_ne (occl_a_nonneg sx sy ex ey) (Ne.symm hnd)
  simp only [occlusion_perfect]
  set A := occl_a sx sy ex ey with hA_def
  set B := occl_b circ.pos_x circ.pos_y sx sy ex ey with hB_def
  set C := occl_c circ.pos_x circ.pos_y circ.radius sx sy with hC_def
  set D := occl_disc circ.pos_x circ.pos_y circ.radius sx sy ex ey with hD_def
  set S1 := occl_sol1 circ.pos_x circ.pos_y circ.radius sx sy ex ey with hS1_def
  set S2 := occl_sol2 circ.pos_x circ.pos_y circ.radius sx sy ex ey with hS2_def
  have hDBC : D = B ^ 2 - 4 * A * C := by
    rw [hD_def, hB_def, hA_def, hC_def]
    rfl
  have keyQ : ∀ t : ℝ,
      ((sx + t * (ex - sx) - circ.pos_x) ^ 2 + (sy + t * (ey - sy) - circ.pos_y) ^ 2 =
        circ.radius ^ 2) ↔ A * t ^ 2 + B * t + C = 0 := by
    intro t
    have hpoly : A * t ^ 2 + B * t + C =
        (sx + t * (ex - sx) - circ.pos_x) ^ 2 + (sy + t * (ey - sy) - circ.pos_y) ^ 2 -
          circ.radius ^ 2 := by
      rw [hA_def, hB_def, hC_def]
      unfold occl_a occl_b occl_c
      ring
    constructor
    · intro h
      rw [hpoly, h]
      ring
    · intro h
      rw [hpoly] at h
      linarith
  by_cases hD : D < 0
  · simp only [if_pos hD]
    constructor
    · refine iff_of_true (by simp) ?_
      rintro ⟨t, ht0, ht1, hb⟩
      refine quad_no_root hApos ?_ t ((keyQ t).mp hb)
      rw [← hDBC]
      exact hD
    · intro p hp
      exact Option.noConfusion hp
  · have hDge : (0 : ℝ) ≤ B ^ 2 - 4 * A * C := by
      rw [← hDBC]
      exact le_of_not_lt hD
    have hS1BC : S1 = (-B - Real.sqrt (B ^ 2 - 4 * A * C)) / (2 * A) := by
      rw [hS1_def, hB_def, hA_def, hC_def]
      unfold occl_sol1 occl_disc
      rw [if_pos hnd]
    have hS2BC : S2 = (-B + Real.sqrt (B ^ 2 - 4 * A * C)) / (2 * A) := by
      rw [hS2_def, hB_def, hA_def, hC_def]
      unfold occl_sol2 occl_disc
      rw [if_pos hnd]
    have hroots : ∀ t : ℝ, A * t ^ 2 + B * t + C = 0 ↔ t = S1 ∨ t = S2 := by
      intro t
      rw [hS1BC, hS2BC]
      exact quad_root_iff hApos hDge t
    have h12 : S1 ≤ S2 := occl_sol1_le_sol2 circ.pos_x circ.pos_y circ.radius sx sy ex ey
    simp only [if_neg hD]
    by_cases h1 : 0 < S1 ∧ S1 ≤ 1
    · simp only [if_pos h1]
      constructor
      · refine iff_of_false (by simp) (not_not_intro ?_)
        exact ⟨S1, h1.1, h1.2, (keyQ S1).mpr ((hroots S1).mpr (Or.inl rfl))⟩
      · intro p hp
        refine ⟨S1, h1.1, h1.2, (keyQ S1).mpr ((hroots S1).mpr (Or.inl rfl)),
          (Option.some.inj hp).symm, ?_⟩
        intro u hu0 hu1 hbu
        rcases (hroots u).mp ((keyQ u).mp hbu) with rfl | rfl
        · exact le_refl _
        · exact h12
    · simp only [if_neg h1]
      by_cases h2 : 0 < S2 ∧ S2 ≤ 1
      · simp only [if_pos h2]
        constructor
        · refine iff_of_false (by simp) (not_not_intro ?_)
          exact ⟨S2, h2.1, h2.2, (keyQ S2).mpr ((hroots S2).mpr (Or.inr rfl))⟩
        · intro p hp
          refine ⟨S2, h2.1, h2.2, (keyQ S2).mpr ((hroots S2).mpr (Or.inr rfl)),
            (Option.some.inj hp).symm, ?_⟩
          intro u hu0 hu1 hbu
          rcases (hroots u).mp ((keyQ u).mp hbu) with rfl | rfl
          · exact absurd ⟨hu0, hu1⟩ h1
          · exact le_refl _
      · simp only [if_neg h2]
        constructor
        · refine iff_of_true (by simp) ?_
          rintro ⟨t, ht0, ht1, hb⟩
          rcases (hroots t).mp ((keyQ t).mp hb) with rfl | rfl
          · exact h1 ⟨ht0, ht1⟩
          · exact h2 ⟨ht0, ht1⟩
        · intro p hp
          exact Option.noConfusion hp

theorem C1_witness :
    occl_a (0 : ℝ) 0 10 0 ≠ 0 ∧ occlusion absorber_near ray_long ≠ none := by
  have ha : occl_a (0 : ℝ) 0 10 0 ≠ 0 := by
    unfold occl_a
    norm_num
  refine ⟨ha, ?_⟩
  intro hnone
  have hspec := (C1_occlusion_boundary_spec ⟨3, 0, color_zero, 1⟩ 0 0 10 0 1
    color_zero ha).1.mp hnone
  refine hspec ⟨1 / 5, by norm_num, by norm_num, ?_⟩
  norm_num

theorem init_isotropic_rays_getElem (i : ℕ) (hi : i < 8) :
    (init_isotropic_rays 0 0 8 1 2)[i]? =
      some (ObjectRay.mk 0 0
        (0 + Real.cos (((i : ℝ) / ((8 : ℤ) : ℝ)) * 2 * Real.pi) * 1)
        (0 + Real.sin (((i : ℝ) / ((8 : ℤ) : ℝ)) * 2 * Real.pi) * 2)
        OBJD_RAY_WIDTH OBJD_RAY_COLOR) := by
  unfold init_isotropic_rays
  rw [List.getElem?_map, List.getElem?_range (show i < (8 : ℤ).toNat from hi)]
  rfl

/-- Claim C4, failing input: on a non-square screen (`screen_width = 1`,
`screen_height = 2`) the eight rays of `init_isotropic_rays 0 0 8` do
*not* have direction angles uniformly spaced by `2π/8`: the code scales
the x-component of each end point by `screen_width` and the y-component
by `screen_height`, so already rays `0` and `1` cannot both lie at
angles `θ₀` and `θ₀ + 2π/8` for any base angle `θ₀`. -/
theorem C4_isotropic_spacing_fails :
    ¬ ∃ θ₀ : ℝ, ∀ i : ℕ, ∀ ray : ObjectRay,
      (init_isotropic_rays 0 0 8 1 2)[i]? = some ray →
      ∃ lam : ℝ, 0 < lam ∧
        ray.end_x - ray.start_x = lam * Real.cos (θ₀ + 2 * Real.pi * i / 8) ∧
        ray.end_y - ray.start_y = lam * Real.sin (θ₀ + 2 * Real.pi * i / 8) := by
  rintro ⟨θ₀, h⟩
  obtain ⟨lam0, hl0, hx0, hy0⟩ := h 0 _ (init_isotropic_rays_getElem 0 (by norm_num))
  obtain ⟨lam1, hl1, hx1, hy1⟩ := h 1 _ (init_isotropic_rays_getElem 1 (by norm_num))
  norm_num [Real.cos_zero, Real.sin_zero] at hx0 hy0
  -- ray 0 forces `sin θ₀ = 0`, `cos θ₀ = 1`, `lam0 = 1`
  have hsin0 : Real.sin θ₀ = 0 := by
    rcases hy0 with h' | h'
    · exact absurd h' (ne_of_gt hl0)
    · exact h'
  have hcpos : 0 < Real.cos θ₀ := by
    by_contra hc
    push_neg at hc
    nlinarith [hx0, hl0, hc]
  have hcos1 : Real.cos θ₀ = 1 := by
    have hle := Real.cos_le_one θ₀
    have hsq := Real.sin_sq_add_cos_sq θ₀
    nlinarith [hsq, hcpos, hle, hsin0]
  -- ray 1 then forces the contradiction `√2 = √2 / 2`
  have hang1 : ((1 : ℕ) : ℝ) / ((8 : ℤ) : ℝ) * 2 * Real.pi = Real.pi / 4 := by
    push_cast
    ring
  have hang1R : θ₀ + 2 * Real.pi * ((1 : ℕ) : ℝ) / 8 = θ₀ + Real.pi / 4 := by
    push_cast
    ring
  rw [hang1] at hx1 hy1
  rw [hang1R] at hx1 hy1
  rw [Real.cos_add, Real.cos_pi_div_four, Real.sin_pi_div_four, hsin0, hcos1] at hx1
  rw [Real.sin_add, Real.cos_pi_div_four, Real.sin_pi_div_four, hsin0, hcos1] at hy1
  have hs2 : 0 < Real.sqrt 2 := Real.sqrt_pos.mpr (by norm_num)
  norm_num at hx1 hy1
  nlinarith [hx1, hy1, hs2, hl1]

theorem getElem?_some_lt {α : Type} {l : List α} {i : ℕ} {a : α}
    (h : l[i]? = some a) : i < l.length := by
  by_contra hc
  rw [List.getElem?_eq_none (le_of_not_lt hc)] at h
  exact Option.noConfusion h

theorem init_collimated_rays_length (sx sy ori D : ℝ) (n : ℤ) (W H : ℝ) :
    (init_collimated_rays sx sy ori D n W H).length = n.toNat := by
  unfold init_collimated_rays
  rw [List.length_map, List.length_range]

theorem init_collimated_rays_getElem (sx sy ori D : ℝ) (n : ℤ) (W H : ℝ)
    (i : ℕ) (hi : i < n.toNat) :
    (init_collimated_rays sx sy ori D n W H)[i]? =
      some (ObjectRay.mk
        (sx + (((i : ℤ) - (n - 1) / 2 : ℤ) : ℝ) * (D / (((n - 1) : ℤ) : ℝ)) *
          (-Real.sin ori))
        (sy + (((i : ℤ) - (n - 1) / 2 : ℤ) : ℝ) * (D / (((n - 1) : ℤ) : ℝ)) *
          Real.cos ori)
        (sx + (((i : ℤ) - (n - 1) / 2 : ℤ) : ℝ) * (D / (((n - 1) : ℤ) : ℝ)) *
          (-Real.sin ori) + Real.cos ori * W)
        (sy + (((i : ℤ) - (n - 1) / 2 : ℤ) : ℝ) * (D / (((n - 1) : ℤ) : ℝ)) *
          Real.cos ori + Real.sin ori * H)
        OBJD_RAY_WIDTH OBJD_RAY_COLOR) := by
  unfold init_collimated_rays
  rw [List.getElem?_map, List.getElem?_range hi]
  rfl

/-- Claim C5 (confirmed): for `n ≥ 2` and `diameter > 0`, the `n` rays
of `init_collimated_rays` all share the same end-minus-start vector
(mutual parallelism), consecutive start points are offset by exactly
`diameter/(n-1)` along the axis perpendicular to the beam orientation
(their difference is orthogonal to `(cos θ, sin θ)`), and the first and
last start points are `diameter` apart. -/
theorem C5_collimated_rays_spec (sx sy ori D : ℝ) (n : ℤ) (W H : ℝ)
    (hn : 2 ≤ n) (hD : 0 < D) :
    (init_collimated_rays sx sy ori D n W H).length = n.toNat ∧
    (∀ i j : ℕ, ∀ ri rj : ObjectRay,
      (init_collimated_rays sx sy ori D n W H)[i]? = some ri →
      (init_collimated_rays sx sy ori D n W H)[j]? = some rj →
      (ri.end_x - ri.start_x, ri.end_y - ri.start_y) =
        (rj.end_x - rj.start_x, rj.end_y - rj.start_y)) ∧
    (∀ i : ℕ, ∀ ri rj : ObjectRay,
      (init_collimated_rays sx sy ori D n W H)[i]? = some ri →
      (init_collimated_rays sx sy ori D n W H)[i + 1]? = some rj →
      Real.sqrt ((rj.start_x - ri.start_x) ^ 2 + (rj.start_y - ri.start_y) ^ 2) =
        D / ((n : ℝ) - 1) ∧
      (rj.start_x - ri.start_x) * Real.cos ori +
        (rj.start_y - ri.start_y) * Real.sin ori = 0) ∧
    (∀ r0 rlast : ObjectRay,
      (init_collimated_rays sx sy ori D n W H)[0]? = some r0 →
      (init_collimated_rays sx sy ori D n W H)[n.toNat - 1]? = some rlast →
      Real.sqrt ((rlast.start_x - r0.start_x) ^ 2 +
        (rlast.start_y - r0.start_y) ^ 2) = D) := by
  have hn1R : (0 : ℝ) < (n : ℝ) - 1 := by
    have : (2 : ℝ) ≤ (n : ℝ) := by exact_mod_cast hn
    linarith
  have hn1cast : (((n - 1) : ℤ) : ℝ) = (n : ℝ) - 1 := by push_cast; ring
  have hlen := init_collimated_rays_length sx sy ori D n W H
  refine ⟨hlen, ?_, ?_, ?_⟩
  · intro i j ri rj hri hrj
    have hi : i < n.toNat := by rw [← hlen]; exact getElem?_some_lt hri
    have hj : j < n.toNat := by rw [← hlen]; exact getElem?_some_lt hrj
    obtain rfl := Option.some.inj
      ((init_collimated_rays_getElem sx sy ori D n W H i hi).symm.trans hri)
    obtain rfl := Option.some.inj
      ((init_collimated_rays_getElem sx sy ori D n W H j hj).symm.trans hrj)
    simp only [Prod.mk.injEq]
    constructor <;> ring
  · intro i ri rj hri hrj
    have hj : i + 1 < n.toNat := by rw [← hlen]; exact getElem?_some_lt hrj
    have hi : i < n.toNat := Nat.lt_of_succ_lt hj
    obtain rfl := Option.some.inj
      ((init_collimated_rays_getElem sx sy ori D n W H i hi).symm.trans hri)
    obtain rfl := Option.some.inj
      ((init_collimated_rays_getElem sx sy ori D n W H (i + 1) hj).symm.trans hrj)
    constructor
    · rw [← Real.sqrt_sq (le_of_lt (div_pos hD hn1R))]
      congr 1
      rw [hn1cast]
      push_cast
      linear_combination (D / ((n : ℝ) - 1)) ^ 2 * Real.sin_sq_add_cos_sq ori
    · push_cast
      ring
  · intro r0 rlast hr0 hrlast
    have h0 : 0 < n.toNat := by omega
    have hlast : n.toNat - 1 < n.toNat := by omega
    obtain rfl := Option.some.inj
      ((init_collimated_rays_getElem sx sy ori D n W H 0 h0).symm.trans hr0)
    obtain rfl := Option.some.inj
      ((init_collimated_rays_getElem sx sy ori D n W H (n.toNat - 1) hlast).symm.trans
        hrlast)
    rw [← Real.sqrt_sq hD.le]
    congr 1
    rw [show ((n.toNat - 1 : ℕ) : ℤ) = n - 1 from by omega, hn1cast]
    push_cast
    field_simp
    linear_combination D ^ 2 * ((n : ℝ) - 1) ^ 2 * Real.sin_sq_add_cos_sq ori

theorem C5_witness : (init_collimated_rays 0 0 0 1 2 1 1).length = (2 : ℤ).toNat :=
  (C5_collimated_rays_spec 0 0 0 1 2 1 1 (by norm_num) (by norm_num)).1

theorem init_isotropic_rays_length (x y : ℝ) (n : ℤ) (W H : ℝ) :
    (init_isotropic_rays x y n W H).length = n.toNat := by
  unfold init_isotropic_rays
  rw [List.length_map, List.length_range]

theorem linspace_length (x1 x2 : ℝ) {n : ℤ} (hn : 2 ≤ n) :
    ∃ pts, linspace x1 x2 n = some pts ∧ pts.length = n.toNat := by
  unfold linspace
  rw [if_neg (by omega : ¬ n ≤ 1)]
  by_cases h2 : n = 2
  · rw [if_pos h2]
    refine ⟨[x1, x2], rfl, ?_⟩
    rw [h2]
    rfl
  · rw [if_neg h2]
    exact ⟨_, rfl, by rw [List.length_map, List.length_range]⟩

theorem init_spotlight_rays_length (x y ori beam : ℝ) {n : ℤ} (W H : ℝ)
    (hn : 2 ≤ n) :
    (init_spotlight_rays x y ori beam n W H).length = n.toNat := by
  simp only [init_spotlight_rays]
  obtain ⟨pts, hpts, hlen⟩ := linspace_length (ori - beam / 2) (ori + beam / 2) hn
  rw [hpts]
  simp only [Option.getD_some, List.length_map]
  exact hlen

/-- Claim C6 (confirmed): for every emitter and delta, if the new ray
count would fall below `OBJC_MIN_RAY_COUNT` the mutation is a no-op on
the emitter and the refusal is reported; otherwise the new count is
exactly `count + delta` — even beyond `OBJC_MAX_RAY_COUNT`, in which
case the over-maximum warning is reported.  The count is never silently
clamped to a bound. -/
theorem C6_change_rays_count_spec (e : Emitters) (delta : ℤ) (W H : ℝ) :
    ((e.rays.length : ℤ) + delta < OBJC_MIN_RAY_COUNT →
      (e.change_rays_count delta W H).1 = e ∧
      (e.change_rays_count delta W H).2 = [RayCountMessage.errCannotReduce]) ∧
    (OBJC_MIN_RAY_COUNT ≤ (e.rays.length : ℤ) + delta →
      (((e.change_rays_count delta W H).1.rays.length : ℤ) =
        (e.rays.length : ℤ) + delta ∧
      (OBJC_MAX_RAY_COUNT < (e.rays.length : ℤ) + delta →
        RayCountMessage.errTooManyRays ∈ (e.change_rays_count delta W H).2))) := by
  cases e with
  | EmitterIsotropic o =>
      constructor
      · intro hlt
        have hcond : ¬ ((o.rays.length : ℤ) + delta ≥ OBJC_MIN_RAY_COUNT) :=
          not_le.mpr hlt
        simp only [Emitters.change_rays_count, if_neg hcond]
        constructor <;> trivial
      · intro hge
        have hcond : (o.rays.length : ℤ) + delta ≥ OBJC_MIN_RAY_COUNT := hge
        have h3 : (3 : ℤ) ≤ (o.rays.length : ℤ) + delta := hge
        simp only [Emitters.change_rays_count, if_pos hcond]
        constructor
        · show ((init_isotropic_rays o.base_object.pos_x o.base_object.pos_y
            ((o.rays.length : ℤ) + delta) W H).length : ℤ) = _
          rw [init_isotropic_rays_length,
            Int.toNat_of_nonneg (by linarith : (0 : ℤ) ≤ (o.rays.length : ℤ) + delta)]
          rfl
        · intro hmax
          show RayCountMessage.errTooManyRays ∈
            check_rays_range (o.rays.length : ℤ) delta
          unfold check_rays_range
          rw [if_pos (show (o.rays.length : ℤ) + delta > OBJC_MAX_RAY_COUNT from hmax)]
          exact List.mem_singleton.mpr rfl
  | EmitterCollimated o =>
      constructor
      · intro hlt
        have hcond : ¬ ((o.base_emitter.rays.length : ℤ) + delta ≥ OBJC_MIN_RAY_COUNT) :=
          not_le.mpr hlt
        simp only [Emitters.change_rays_count, if_neg hcond]
        constructor <;> trivial
      · intro hge
        have hcond : (o.base_emitter.rays.length : ℤ) + delta ≥ OBJC_MIN_RAY_COUNT := hge
        have h3 : (3 : ℤ) ≤ (o.base_emitter.rays.length : ℤ) + delta := hge
        simp only [Emitters.change_rays_count, if_pos hcond]
        constructor
        · show ((init_collimated_rays o.base_emitter.base_object.pos_x
            o.base_emitter.base_object.pos_y o.orientation o.collimated_beam_diameter
            ((o.base_emitter.rays.length : ℤ) + delta) W H).length : ℤ) = _
          rw [init_collimated_rays_length,
            Int.toNat_of_nonneg
              (by linarith : (0 : ℤ) ≤ (o.base_emitter.rays.length : ℤ) + delta)]
          rfl
        · intro hmax
          show RayCountMessage.errTooManyRays ∈
            check_rays_range (o.base_emitter.rays.length : ℤ) delta
          unfold check_rays_range
          rw [if_pos (show (o.base_emitter.rays.length : ℤ) + delta >
            OBJC_MAX_RAY_COUNT from hmax)]
          exact List.mem_singleton.mpr rfl
  | EmitterSpotlight o =>
      constructor
      · intro hlt
        have hcond : ¬ ((o.base_emitter.rays.length : ℤ) + delta ≥ OBJC_MIN_RAY_COUNT) :=
          not_le.mpr hlt
        simp only [Emitters.change_rays_count, if_neg hcond]
        constructor <;> trivial
      · intro hge
        have hcond : (o.base_emitter.rays.length : ℤ) + delta ≥ OBJC_MIN_RAY_COUNT := hge
        have h3 : (3 : ℤ) ≤ (o.base_emitter.rays.length : ℤ) + delta := hge
        simp only [Emitters.change_rays_count, if_pos hcond]
        constructor
        · show ((init_spotlight_rays o.base_emitter.base_object.pos_x
            o.base_emitter.base_object.pos_y o.orientation o.spotlight_beam_angle
            ((o.base_emitter.rays.length : ℤ) + delta) W H).length : ℤ) = _
          rw [init_spotlight_rays_length _ _ _ _ _ _ (by linarith),
            Int.toNat_of_nonneg
              (by linarith : (0 : ℤ) ≤ (o.base_emitter.rays.length : ℤ) + delta)]
          rfl
        · intro hmax
          show RayCountMessage.errTooManyRays ∈
            check_rays_range (o.base_emitter.rays.length : ℤ) delta
          unfold check_rays_range
          rw [if_pos (show (o.base_emitter.rays.length : ℤ) + delta >
            OBJC_MAX_RAY_COUNT from hmax)]
          exact List.mem_singleton.mpr rfl

theorem C6_witness :
    (Emitters.change_rays_count emitter_empty (-1) 1 1).1 = emitter_empty ∧
    (Emitters.change_rays_count emitter_empty (-1) 1 1).2 =
      [RayCountMessage.errCannotReduce] :=
  (C6_change_rays_count_spec emitter_empty (-1) 1 1).1
    (by norm_num [emitter_empty, Emitters.rays, OBJC_MIN_RAY_COUNT])

/-- Claim C7, counterexample: the claim as stated is false for emitters.
`Emitters::change_radius` applies a negative factor whenever the radius
is at least `30`, without flooring: an isotropic emitter of radius `30`
resized by `-31` ends with radius `-1 < 0`. -/
theorem C7_counterexample :
    Emitters.get_radius (Emitters.change_radius emitter_rad30 (-31)) < 0 := by
  have hcond : ((30 : ℝ) ≥ 30 ∧ (-31 : ℝ) < 0) := by norm_num
  show Emitters.get_radius (Emitters.change_radius
    (Emitters.EmitterIsotropic ⟨⟨0, 0, color_zero, 30⟩, []⟩) (-31)) < 0
  simp only [Emitters.change_radius]
  rw [if_pos hcond]
  show (30 : ℝ) + (-31) < 0
  norm_num

/-- Claim C7 (amended): `Absorbers::change_radius` floors at zero, so an
absorber's radius is never negative after a resize, for any factor.
`Emitters::change_radius` has no floor: it applies a negative factor
exactly when the radius is at least `30`, so starting from a
nonnegative radius the result stays nonnegative provided the factor is
at least `-30`; factors below `-30` can make it negative. -/
theorem C7_radius_floor (a : Absorbers) (e : Emitters) (f g : ℝ)
    (he : 0 ≤ e.get_radius) (hg : -30 ≤ g) :
    0 ≤ (a.change_radius f).get_radius ∧ 0 ≤ (e.change_radius g).get_radius := by
  constructor
  · obtain ⟨o⟩ := a
    obtain ⟨oc⟩ := o
    simp only [Absorbers.change_radius, Absorbers.get_radius]
    split_ifs with h
    · linarith
    · exact le_refl 0
  · cases e with
    | EmitterIsotropic o =>
        simp only [Emitters.get_radius] at he
        simp only [Emitters.change_radius]
        split_ifs with h1 h2
        · simp only [Emitters.get_radius]
          have := h1.1
          linarith
        · simp only [Emitters.get_radius]
          linarith
        · simp only [Emitters.get_radius]
          linarith
    | EmitterCollimated o =>
        simp only [Emitters.get_radius] at he
        simp only [Emitters.change_radius]
        split_ifs with h1 h2
        · simp only [Emitters.get_radius]
          have := h1.1
          linarith
        · simp only [Emitters.get_radius]
          linarith
        · simp only [Emitters.get_radius]
          linarith
    | EmitterSpotlight o =>
        simp only [Emitters.get_radius] at he
        simp only [Emitters.change_radius]
        split_ifs with h1 h2
        · simp only [Emitters.get_radius]
          have := h1.1
          linarith
        · simp only [Emitters.get_radius]
          linarith
        · simp only [Emitters.get_radius]
          linarith

theorem C7_witness :
    0 ≤ Emitters.get_radius emitter_rad30 ∧ (-30 : ℝ) ≤ -5 ∧
      0 ≤ (Absorbers.change_radius absorber_near (-5)).get_radius ∧
      0 ≤ (Emitters.change_radius emitter_rad30 (-5)).get_radius := by
  have h := C7_radius_floor absorber_near emitter_rad30 (-5) (-5)
    (by norm_num [emitter_rad30, Emitters.get_radius]) (by norm_num)
  exact ⟨by norm_num [emitter_rad30, Emitters.get_radius], by norm_num, h.1, h.2⟩

/-- Claim C8, counterexample: the claim as stated is false.  The hit
test of `object_at_cursor_index` uses the constant `OBJD_CIRCLE_RADIUS`
(the default radius, `50`), not the object's own radius: a zero-radius
absorber at the origin is reported under a cursor at `(54, 0)`, although
`54` is far outside epsilon plus the object's radius (`5 + 0`). -/
theorem C8_counterexample :
    object_at_cursor_index [absorber_tiny_obj] 54 0 = some 0 ∧
      ¬ (|(54 : ℝ) - absorber_tiny_obj.get_pos.1| <
            OBJC_MOUSE_EPSILON + absorber_tiny_obj.obj_radius ∧
          |(0 : ℝ) - absorber_tiny_obj.get_pos.2| <
            OBJC_MOUSE_EPSILON + absorber_tiny_obj.obj_radius) := by
  constructor
  · simp only [object_at_cursor_index]
    rw [if_pos]
    constructor <;>
      norm_num [absorber_tiny_obj, RaytracerObjects.get_pos, OBJC_MOUSE_EPSILON,
        OBJD_CIRCLE_RADIUS, abs_lt]
  · rintro ⟨h1, -⟩
    norm_num [absorber_tiny_obj, RaytracerObjects.get_pos, RaytracerObjects.obj_radius,
      Absorbers.get_radius, OBJC_MOUSE_EPSILON, abs_lt] at h1

/-- Claim C8 (amended): `object_at_cursor_index` returns `some i`
exactly when object `i` is the first (lowest-index) object whose
hit box — position ± (`OBJC_MOUSE_EPSILON` plus the *default* circle
radius constant, not the object's own radius) — contains the cursor,
and `none` when no object's box contains it. -/
theorem C8_object_at_cursor_spec (l : List RaytracerObjects) (mx my : ℝ) :
    (∀ i : ℕ, object_at_cursor_index l mx my = some i ↔
      ((∃ o, l[i]? = some o ∧ cursor_hit o mx my) ∧
        ∀ j, j < i → ∀ o, l[j]? = some o → ¬ cursor_hit o mx my)) ∧
    (object_at_cursor_index l mx my = none ↔ ∀ o ∈ l, ¬ cursor_hit o mx my) := by
  induction l with
  | nil =>
      constructor
      · intro i
        refine iff_of_false (by simp [object_at_cursor_index]) ?_
        rintro ⟨⟨o, ho, -⟩, -⟩
        simp at ho
      · refine iff_of_true rfl ?_
        intro o ho
        exact absurd ho (List.not_mem_nil o)
  | cons o rest ih =>
      obtain ⟨ih_some, ih_none⟩ := ih
      by_cases h : |mx - o.get_pos.1| < OBJC_MOUSE_EPSILON + OBJD_CIRCLE_RADIUS ∧
        |my - o.get_pos.2| < OBJC_MOUSE_EPSILON + OBJD_CIRCLE_RADIUS
      · have hstep : object_at_cursor_index (o :: rest) mx my = some 0 := by
          simp only [object_at_cursor_index]
          rw [if_pos h]
        constructor
        · intro i
          constructor
          · intro hsome
            rw [hstep] at hsome
            obtain rfl := (Option.some.inj hsome).symm
            refine ⟨⟨o, by simp, h⟩, ?_⟩
            intro j hj
            exact absurd hj (Nat.not_lt_zero j)
          · rintro ⟨⟨o', ho', hh'⟩, hmin⟩
            cases i with
            | zero => exact hstep
            | succ k =>
                refine absurd h (hmin 0 (Nat.succ_pos k) o ?_)
                simp
        · refine iff_of_false (by rw [hstep]; simp) ?_
          intro hall
          exact hall o (List.mem_cons_self o rest) h
      · have hstep : object_at_cursor_index (o :: rest) mx my =
            (object_at_cursor_index rest mx my).map (· + 1) := by
          simp only [object_at_cursor_index]
          rw [if_neg h]
        constructor
        · intro i
          rw [hstep]
          constructor
          · intro hsome
            obtain ⟨k, hk, hik⟩ := Option.map_eq_some'.mp hsome
            obtain rfl := hik.symm
            obtain ⟨⟨o', ho', hh'⟩, hmin⟩ := (ih_some k).mp hk
            refine ⟨⟨o', by simpa using ho', hh'⟩, ?_⟩
            intro j hj o'' ho''
            cases j with
            | zero =>
                have : o'' = o := by simpa using ho''.symm
                rw [this]
                exact h
            | succ j' =>
                exact hmin j' (by omega) o'' (by simpa using ho'')
          · rintro ⟨⟨o', ho', hh'⟩, hmin⟩
            cases i with
            | zero =>
                have : o' = o := by simpa using ho'.symm
                rw [this] at hh'
                exact absurd hh' h
            | succ k =>
                have hrest : object_at_cursor_index rest mx my = some k :=
                  (ih_some k).mpr ⟨⟨o', by simpa using ho', hh'⟩,
                    fun j hj o'' ho'' =>
                      hmin (j + 1) (by omega) o'' (by simpa using ho'')⟩
                rw [hrest]
                rfl
        · rw [hstep]
          constructor
          · intro hnone
            have hr : object_at_cursor_index rest mx my = none :=
              Option.map_eq_none'.mp hnone
            intro o' ho'
            rcases List.mem_cons.mp ho' with rfl | hmem
            · exact h
            · exact ih_none.mp hr o' hmem
          · intro hall
            have hr : object_at_cursor_index rest mx my = none :=
              ih_none.mpr (fun o' ho' => hall o' (List.mem_cons_of_mem o ho'))
            rw [hr]
            rfl

theorem C8_witness : object_at_cursor_index [absorber_tiny_obj] 54 0 ≠ none := by
  intro hn
  have hhit : cursor_hit absorber_tiny_obj 54 0 := by
    constructor <;>
      norm_num [absorber_tiny_obj, cursor_hit, RaytracerObjects.get_pos,
        OBJC_MOUSE_EPSILON, OBJD_CIRCLE_RADIUS, abs_lt]
  exact ((C8_object_at_cursor_spec [absorber_tiny_obj] 54 0).2.mp hn)
    absorber_tiny_obj (List.mem_cons_self _ _) hhit

end Raytracer
